import Mathlib

/-! CMDB core: configuration items, relationships and their indexes

A shallow embedding of `pkg/db` (files `db.go`, `errors.go`,
`configuration_item.go`, `relationship.go`).

Conventions of the embedding.

* A Go `string` / `[]byte` is a list of bytes (`GoString`); nothing assumes UTF-8.
* The bbolt file is a `Store`: the top-level buckets by name, each bucket an
  ascending list of key/value pairs.  `db.Update` commits the transaction when
  the closure returns `nil` and rolls it back otherwise; `db.View` reads the
  committed state.  I/O failures of the storage engine are not modelled.
* A Go function returning `(T, error)` returns `Except Err T`; what accompanies
  a non-nil error is dropped.  A function that also writes returns the store
  it leaves behind as a second component.
* Library behaviour the code depends on is modelled from the library's
  documented semantics: `crypto/md5` (RFC 1321), `strings.ToLower`,
  `sort.Strings`, `encoding/json`, the bbolt cursor, and the unspecified
  iteration order of Go maps (an explicit `seed` per `range` statement).
-/

namespace Cmdb

/-! ## Go strings -/

/-- A Go `string` or `[]byte`: an arbitrary sequence of bytes. -/
abbrev GoString := List UInt8

/-- The bytes of a string literal (its UTF-8 encoding). -/
def str (s : String) : GoString := s.data.flatMap String.utf8EncodeChar

/-- Bytewise lexicographic `<`, the order of `sort.Strings` and of bbolt keys. -/
def bytesLt : GoString → GoString → Bool
  | [], [] => false
  | [], _ :: _ => true
  | _ :: _, [] => false
  | a :: s, b :: t => a < b || (a == b && bytesLt s t)

/-- The function `strings.HasPrefix` (and `bytes.HasPrefix`). -/
def hasPrefix : GoString → GoString → Bool
  | _, [] => true
  | [], _ :: _ => false
  | a :: s, b :: p => a == b && hasPrefix s p

/-- ASCII lower-casing of one byte: `'A'..'Z'` move to `'a'..'z'`. -/
def lowerByte (c : UInt8) : UInt8 := if 65 ≤ c ∧ c ≤ 90 then c + 32 else c

/-- The function `strings.ToLower`.  Go lowers an ASCII-only string bytewise; a string with a
byte `≥ 0x80` goes through `strings.Map(unicode.ToLower, s)`, which depends on the Unicode
tables and is the parameter `U`. -/
def ToLower (U : GoString → GoString) (s : GoString) : GoString :=
  if s.all (fun c => c < 128) then s.map lowerByte else U s

/-- A string of ASCII bytes only. -/
def isASCII (s : GoString) : Bool := s.all (fun c => decide (c < 128))

/-- Insertion of one string into an ascending list. -/
def insertString (k : GoString) : List GoString → List GoString
  | [] => [k]
  | x :: t => if bytesLt x k then x :: insertString k t else k :: x :: t

/-- The function `sort.Strings`: ascending bytewise order. -/
def sortStrings (l : List GoString) : List GoString := l.foldr insertString []

/-! ## Ordered key/value lists -/

/-- Lookup of a key. -/
def KV.get {α : Type} : List (GoString × α) → GoString → Option α
  | [], _ => none
  | (k', v) :: t, k => if k' = k then some v else KV.get t k

/-- Insert or overwrite a key, keeping ascending key order. -/
def KV.put {α : Type} : List (GoString × α) → GoString → α → List (GoString × α)
  | [], k, v => [(k, v)]
  | (k', v') :: t, k, v =>
    if k = k' then (k, v) :: t
    else if bytesLt k k' then (k, v) :: (k', v') :: t
    else (k', v') :: KV.put t k v

/-- Remove a key. -/
def KV.delete {α : Type} (l : List (GoString × α)) (k : GoString) : List (GoString × α) :=
  l.filter (fun e => decide (e.1 ≠ k))

/-- Strictly ascending keys: the order bbolt keeps a bucket in. -/
def KV.Sorted {α : Type} (l : List (GoString × α)) : Prop :=
  l.Pairwise (fun x y => bytesLt x.1 y.1 = true)

/-! ## Go maps -/

/-- A Go `map[string]string`, as its list of entries (keys distinct).  The order of the list
carries no meaning: a `range` statement visits the entries in the order `rangeOrder` gives for
its seed. -/
abbrev GoMap := List (GoString × GoString)

/-- The key list of a map in list order. -/
def GoMap.keys (m : GoMap) : List GoString := m.map Prod.fst

/-- Indexing `m[k]`: the zero value `""` for an absent key. -/
def GoMap.index (m : GoMap) (k : GoString) : GoString := (KV.get m k).getD []

/-- Selection of the entries one by one: `seed % n` picks the next one of the `n` left. -/
def rangeOrderAux {α : Type} : Nat → Nat → List α → List α
  | 0, _, _ => []
  | n + 1, seed, l =>
    match l.get? (seed % (n + 1)) with
    | none => []
    | some x => x :: rangeOrderAux n (seed / (n + 1)) (l.eraseIdx (seed % (n + 1)))

/-- The order in which one `range` statement visits a map.  Go leaves it unspecified and
randomises it; `seed` is the runtime's choice, and every permutation is some seed's order. -/
def rangeOrder {α : Type} (seed : Nat) (l : List α) : List α := rangeOrderAux l.length seed l

/-! ## MD5 (RFC 1321), the digest of `crypto/md5` -/

/-- Per-round left-rotation amounts. -/
def md5S : List Nat :=
  [7, 12, 17, 22, 7, 12, 17, 22, 7, 12, 17, 22, 7, 12, 17, 22,
   5, 9, 14, 20, 5, 9, 14, 20, 5, 9, 14, 20, 5, 9, 14, 20,
   4, 11, 16, 23, 4, 11, 16, 23, 4, 11, 16, 23, 4, 11, 16, 23,
   6, 10, 15, 21, 6, 10, 15, 21, 6, 10, 15, 21, 6, 10, 15, 21]

/-- The sine-derived round constants. -/
def md5K : List Nat :=
  [0xd76aa478, 0xe8c7b756, 0x242070db, 0xc1bdceee, 0xf57c0faf, 0x4787c62a, 0xa8304613, 0xfd469501,
   0x698098d8, 0x8b44f7af, 0xffff5bb1, 0x895cd7be, 0x6b901122, 0xfd987193, 0xa679438e, 0x49b40821,
   0xf61e2562, 0xc040b340, 0x265e5a51, 0xe9b6c7aa, 0xd62f105d, 0x02441453, 0xd8a1e681, 0xe7d3fbc8,
   0x21e1cde6, 0xc33707d6, 0xf4d50d87, 0x455a14ed, 0xa9e3e905, 0xfcefa3f8, 0x676f02d9, 0x8d2a4c8a,
   0xfffa3942, 0x8771f681, 0x6d9d6122, 0xfde5380c, 0xa4beea44, 0x4bdecfa9, 0xf6bb4b60, 0xbebfbc70,
   0x289b7ec6, 0xeaa127fa, 0xd4ef3085, 0x04881d05, 0xd9d4d039, 0xe6db99e5, 0x1fa27cf8, 0xc4ac5665,
   0xf4292244, 0x432aff97, 0xab9423a7, 0xfc93a039, 0x655b59c3, 0x8f0ccc92, 0xffeff47d, 0x85845dd1,
   0x6fa87e4f, 0xfe2ce6e0, 0xa3014314, 0x4e0811a1, 0xf7537e82, 0xbd3af235, 0x2ad7d2bb, 0xeb86d391]

/-- The modulus of 32-bit words. -/
def w32 : Nat := 4294967296

/-- Left rotation of a 32-bit word. -/
def rotl32 (x c : Nat) : Nat := ((x <<< c) % w32) ||| (x >>> (32 - c))

/-- Bitwise complement of a 32-bit word. -/
def not32 (x : Nat) : Nat := w32 - 1 - x

/-- The `n` low bytes of `x`, least significant first. -/
def leBytes : Nat → Nat → GoString
  | 0, _ => []
  | n + 1, x => UInt8.ofNat (x % 256) :: leBytes n (x / 256)

/-- The number a little-endian byte string denotes. -/
def leWord : GoString → Nat
  | [] => 0
  | b :: t => b.toNat + 256 * leWord t

/-- Padding: a `0x80` byte, zeros up to 56 modulo 64, then the bit length on 8 bytes. -/
def md5Pad (msg : GoString) : GoString :=
  msg ++ [0x80] ++ List.replicate ((119 - msg.length % 64) % 64) 0
    ++ leBytes 8 ((8 * msg.length) % 2 ^ 64)

/-- The first `n` 32-bit little-endian words of a byte string. -/
def md5Words : Nat → GoString → List Nat
  | 0, _ => []
  | n + 1, bs => leWord (bs.take 4) :: md5Words n (bs.drop 4)

/-- The four chaining words. -/
structure MD5State where
  a : Nat
  b : Nat
  c : Nat
  d : Nat

/-- Operation `i` (of 64) on the message words `m`. -/
def md5Round (m : List Nat) (st : MD5State) (i : Nat) : MD5State :=
  let f :=
    if i < 16 then (st.b &&& st.c) ||| (not32 st.b &&& st.d)
    else if i < 32 then (st.d &&& st.b) ||| (not32 st.d &&& st.c)
    else if i < 48 then st.b ^^^ st.c ^^^ st.d
    else st.c ^^^ (st.b ||| not32 st.d)
  let g :=
    if i < 16 then i
    else if i < 32 then (5 * i + 1) % 16
    else if i < 48 then (3 * i + 5) % 16
    else (7 * i) % 16
  let f2 := (f + st.a + md5K.getD i 0 + m.getD g 0) % w32
  { a := st.d, d := st.c, c := st.b, b := (st.b + rotl32 f2 (md5S.getD i 0)) % w32 }

/-- Compression of one 64-byte block. -/
def md5Block (st : MD5State) (block : GoString) : MD5State :=
  let m := md5Words 16 block
  let r := (List.range 64).foldl (md5Round m) st
  { a := (st.a + r.a) % w32, b := (st.b + r.b) % w32,
    c := (st.c + r.c) % w32, d := (st.d + r.d) % w32 }

/-- Compression of `n` consecutive blocks. -/
def md5Blocks : Nat → MD5State → GoString → MD5State
  | 0, st, _ => st
  | n + 1, st, bs => md5Blocks n (md5Block st (bs.take 64)) (bs.drop 64)

/-- The function `md5.Sum`: the 16-byte digest. -/
def md5Sum (msg : GoString) : GoString :=
  let p := md5Pad msg
  let r := md5Blocks (p.length / 64) ⟨0x67452301, 0xefcdab89, 0x98badcfe, 0x10325476⟩ p
  leBytes 4 r.a ++ leBytes 4 r.b ++ leBytes 4 r.c ++ leBytes 4 r.d

/-! ## Type derivation (`configuration_item.go`) -/

/-- The function `normalizeData`.  The three loops of the source: the first
ranges over `data` (seed `s1`) and stores each value under the lowered key, a later entry
overwriting an earlier one with the same lowered key; the second ranges over that map (seed
`s2`), collects its keys and sorts them; the third walks the sorted keys and stores each entry
in a fresh map, which is returned.  The result is a Go map again: its iteration order is not
the order of insertion. -/
def normalizeData (U : GoString → GoString) (s1 s2 : Nat) (data : GoMap) : GoMap :=
  let normalizedData : GoMap :=
    (rangeOrder s1 data).foldl (fun m kv => KV.put m (ToLower U kv.1) kv.2) []
  let keys := sortStrings (GoMap.keys (rangeOrder s2 normalizedData))
  keys.foldl (fun m k => KV.put m k (GoMap.index normalizedData k)) []

/-- The function `hashData`: the keys of `data`, concatenated in the order the `range`
statement visits them (seed `s`), hashed with MD5; the digest is returned as a raw string. -/
def hashData (s : Nat) (data : GoMap) : GoString :=
  md5Sum ((GoMap.keys (rangeOrder s data)).foldl (fun labelsString k => labelsString ++ k) [])

/-! ## UTF-8 and `encoding/json` -/

/-- First-byte table of `unicode/utf8`: the width of the encoding a first byte announces and
the range its second byte must lie in; `none` for a byte that starts no encoding. -/
def utf8First (b : UInt8) : Option (Nat × UInt8 × UInt8) :=
  if b < 0x80 then some (1, 0x00, 0x7F)
  else if b < 0xC2 then none
  else if b ≤ 0xDF then some (2, 0x80, 0xBF)
  else if b = 0xE0 then some (3, 0xA0, 0xBF)
  else if b = 0xED then some (3, 0x80, 0x9F)
  else if b ≤ 0xEF then some (3, 0x80, 0xBF)
  else if b = 0xF0 then some (4, 0x90, 0xBF)
  else if b ≤ 0xF3 then some (4, 0x80, 0xBF)
  else if b = 0xF4 then some (4, 0x80, 0x8F)
  else none

/-- A continuation byte `10xxxxxx`. -/
def isCont (b : UInt8) : Bool := decide (0x80 ≤ b) && decide (b ≤ 0xBF)

/-- The function `utf8.DecodeRuneInString`, reduced to the width it reports: the number of
bytes of the well-formed encoding at the head of `s`, and `0` where Go returns
`(RuneError, 1)` (or `s` is empty). -/
def runeWidth (s : GoString) : Nat :=
  match s with
  | [] => 0
  | b0 :: t =>
    match utf8First b0 with
    | none => 0
    | some (n, lo, hi) =>
      if n = 1 then 1
      else
        match t with
        | [] => 0
        | b1 :: t1 =>
          if decide (lo ≤ b1) && decide (b1 ≤ hi) && decide ((t1.take (n - 2)).length = n - 2)
              && (t1.take (n - 2)).all isCont then n
          else 0

/-- The function `utf8.ValidString`, on at most `fuel` runes. -/
def validUTF8Aux : Nat → GoString → Bool
  | 0, s => s.isEmpty
  | n + 1, s =>
    match s with
    | [] => true
    | _ :: _ =>
      match runeWidth s with
      | 0 => false
      | w => validUTF8Aux n (s.drop w)

/-- The function `utf8.ValidString`. -/
def validUTF8 (s : GoString) : Bool := validUTF8Aux s.length s

/-- The encoding of U+FFFD, the replacement rune. -/
def replacementRune : GoString := [0xEF, 0xBF, 0xBD]

/-- Coercion to valid UTF-8, on at most `fuel` runes. -/
def toValidUTF8Aux : Nat → GoString → GoString
  | 0, _ => []
  | n + 1, s =>
    match s with
    | [] => []
    | _ :: t =>
      match runeWidth s with
      | 0 => replacementRune ++ toValidUTF8Aux n t
      | w => s.take w ++ toValidUTF8Aux n (s.drop w)

/-- What a Go string becomes on its way through `json.Marshal` and `json.Unmarshal`:
"String values encode as JSON strings coerced to valid UTF-8, replacing invalid bytes with the
Unicode replacement rune" (package documentation of `encoding/json`). -/
def toValidUTF8 (s : GoString) : GoString := toValidUTF8Aux s.length s

/-- The hexadecimal digit of a number below 16. -/
def hexDigit (n : Nat) : UInt8 := if n < 10 then UInt8.ofNat (48 + n) else UInt8.ofNat (87 + n)

/-- The table `htmlSafeSet` of `encoding/json` on ASCII bytes: the bytes written unescaped. -/
def htmlSafe (b : UInt8) : Bool :=
  decide (0x20 ≤ b) && !(b == 0x22 || b == 0x26 || b == 0x3C || b == 0x3E || b == 0x5C)

/-- The body of a JSON string literal as `json.Marshal` writes it (HTML escaping on), on at
most `fuel` runes.  Go from 1.22 on writes the bytes `0x08` and `0x0C` as `\b` and `\f`
instead of `\u0008` and `\u000c`; the older form is taken here. -/
def jsonStringAux : Nat → GoString → GoString
  | 0, _ => []
  | n + 1, s =>
    match s with
    | [] => []
    | b :: t =>
      if b < 0x80 then
        (if htmlSafe b then [b]
         else if b = 0x5C ∨ b = 0x22 then [0x5C, b]
         else if b = 0x0A then str "\\n"
         else if b = 0x0D then str "\\r"
         else if b = 0x09 then str "\\t"
         else str "\\u00" ++ [hexDigit (b.toNat / 16), hexDigit (b.toNat % 16)])
          ++ jsonStringAux n t
      else
        match runeWidth s with
        | 0 => str "\\ufffd" ++ jsonStringAux n t
        | w =>
          (if s.take 3 = [0xE2, 0x80, 0xA8] then str "\\u2028"
           else if s.take 3 = [0xE2, 0x80, 0xA9] then str "\\u2029"
           else s.take w) ++ jsonStringAux n (s.drop w)

/-- A Go string as a JSON string literal. -/
def jsonString (s : GoString) : GoString := str "\"" ++ jsonStringAux s.length s ++ str "\""

/-- A Go `int` in decimal. -/
def jsonInt (i : Int) : GoString :=
  (if i < 0 then str "-" else []) ++ (Nat.toDigits 10 i.natAbs).map (fun c => UInt8.ofNat c.toNat)

/-- The entries of a map in ascending key order, as `json.Marshal` visits them. -/
def sortedEntries (m : GoMap) : GoMap := m.foldl (fun acc kv => KV.put acc kv.1 kv.2) []

/-- The members of a JSON object, comma separated. -/
def jsonMembers : GoMap → GoString
  | [] => []
  | [(k, v)] => jsonString k ++ str ":" ++ jsonString v
  | (k, v) :: t => jsonString k ++ str ":" ++ jsonString v ++ str "," ++ jsonMembers t

/-- A `map[string]string` as a JSON object, keys ascending.  (A nil map, which Go writes as
`null`, is not told apart from the empty map.) -/
def jsonMap (m : GoMap) : GoString := str "\x7b" ++ jsonMembers (sortedEntries m) ++ str "\x7d"

/-- A map after `json.Marshal` and `json.Unmarshal`: the entries are written in ascending key
order, keys and values coerced to valid UTF-8; the decoder stores them one after the other, a
later member overwriting an earlier one with the same key. -/
def coerceMap (m : GoMap) : GoMap :=
  (sortedEntries m).foldl (fun acc kv => KV.put acc (toValidUTF8 kv.1) (toValidUTF8 kv.2)) []

/-! ## Records (`configuration_item.go`, `relationship.go`) -/

/-- The struct `ConfigurationItemType`. -/
structure ConfigurationItemType where
  ID : GoString
  Name : GoString
deriving DecidableEq, Repr

/-- The struct `ConfigurationItem` (the field `Type` is `Type_` here). -/
structure ConfigurationItem where
  ID : GoString
  Version : Int
  Data : GoMap
  Type_ : ConfigurationItemType
deriving DecidableEq, Repr

set_option linter.dupNamespace false in
/-- The struct `Relationship`. -/
structure Relationship where
  ID : GoString
  From : GoString
  To : GoString
  Relationship : GoString
  Version : Int
  Data : GoMap
deriving DecidableEq, Repr

/-- The JSON text `json.Marshal` writes for a `ConfigurationItem`. -/
def marshalCI (c : ConfigurationItem) : GoString :=
  str "\x7b\"id\":" ++ jsonString c.ID ++ str ",\"version\":" ++ jsonInt c.Version
    ++ str ",\"data\":" ++ jsonMap c.Data
    ++ str ",\"type\":\x7b\"id\":" ++ jsonString c.Type_.ID
    ++ str ",\"name\":" ++ jsonString c.Type_.Name ++ str "\x7d\x7d"

/-- The JSON text `json.Marshal` writes for a `Relationship`. -/
def marshalRel (r : Relationship) : GoString :=
  str "\x7b\"id\":" ++ jsonString r.ID ++ str ",\"from\":" ++ jsonString r.From
    ++ str ",\"to\":" ++ jsonString r.To ++ str ",\"relationship\":" ++ jsonString r.Relationship
    ++ str ",\"version\":" ++ jsonInt r.Version ++ str ",\"data\":" ++ jsonMap r.Data ++ str "\x7d"

/-- A value stored under a key.  The code stores byte strings of three origins, and a value
is kept with its origin: bytes written as they are (type names, edge-type names, empty
markers), the JSON text of a configuration item, and the JSON text of a relationship. -/
inductive Value where
  | raw (b : GoString)
  | ci (c : ConfigurationItem)
  | rel (r : Relationship)
deriving DecidableEq, Repr

/-- The stored bytes. -/
def Value.bytes : Value → GoString
  | .raw b => b
  | .ci c => marshalCI c
  | .rel r => marshalRel r

/-- Errors: those of `errors.go`, those of bbolt the code can meet, a decoding failure of
`encoding/json`, and the runtime panic of a method call on a nil bucket. -/
inductive Err where
  | ErrKeyNotFound
  | ErrNameAlreadyExists
  | ErrReservedBucketName
  | ErrBucketNotFound
  | ErrBucketNameRequired
  | ErrKeyRequired
  | ErrKeyTooLarge
  | ErrValueTooLarge
  | jsonError
  | nilBucketPanic
deriving DecidableEq, Repr

deriving instance DecidableEq for Except

/-- The call `json.Unmarshal(v, &ci)` on a zero `ConfigurationItem`.  The text of a
configuration item gives back its fields, strings coerced; the text of a relationship fills
the fields whose JSON names match (`id`, `version`, `data`) and leaves `type` zero.  A
missing value (`nil`) is not a JSON document.  Bytes of the first origin (names and empty
markers) are taken not to be JSON documents either: that is exact for the empty marker and
for a name that is not JSON text, and it is not exact for a name that happens to be JSON text
(Go decodes the name `null` to the zero value without an error); the `raw` case is reached
only when a bucket of names is read as a bucket of records. -/
def unmarshalCI : Option Value → Except Err ConfigurationItem
  | some (.ci c) =>
    .ok { ID := toValidUTF8 c.ID, Version := c.Version, Data := coerceMap c.Data,
          Type_ := { ID := toValidUTF8 c.Type_.ID, Name := toValidUTF8 c.Type_.Name } }
  | some (.rel r) =>
    .ok { ID := toValidUTF8 r.ID, Version := r.Version, Data := coerceMap r.Data,
          Type_ := { ID := [], Name := [] } }
  | some (.raw _) => .error .jsonError
  | none => .error .jsonError

/-- The call `json.Unmarshal(v, &rel)` on a zero `Relationship`; see `unmarshalCI`. -/
def unmarshalRel : Option Value → Except Err Relationship
  | some (.rel r) =>
    .ok { ID := toValidUTF8 r.ID, From := toValidUTF8 r.From, To := toValidUTF8 r.To,
          Relationship := toValidUTF8 r.Relationship, Version := r.Version,
          Data := coerceMap r.Data }
  | some (.ci c) =>
    .ok { ID := toValidUTF8 c.ID, From := [], To := [], Relationship := [],
          Version := c.Version, Data := coerceMap c.Data }
  | some (.raw _) => .error .jsonError
  | none => .error .jsonError

/-! ## The bbolt store (`db.go`) -/

/-- A bucket: its key/value pairs in ascending key order. -/
abbrev Bucket := List (GoString × Value)

/-- The database file: its top-level buckets by name. -/
abbrev Store := List (GoString × Bucket)

/-- The constant `bolt.MaxKeySize`. -/
def MaxKeySize : Nat := 32768

/-- The constant `bolt.MaxValueSize`. -/
def MaxValueSize : Nat := 2147483646

/-- The call `tx.Bucket(name)`: `none` is Go's nil bucket. -/
def txBucket (tx : Store) (name : GoString) : Option Bucket := KV.get tx name

/-- The call `tx.CreateBucketIfNotExists(name)`. -/
def CreateBucketIfNotExists (tx : Store) (name : GoString) : Except Err Store :=
  if name = [] then .error .ErrBucketNameRequired
  else
    match txBucket tx name with
    | some _ => .ok tx
    | none => .ok (KV.put tx name [])

/-- The call `b.Put(key, value)` on the bucket called `name`, with bbolt's checks of the key
and the value, in their order.  A method call on a nil bucket panics. -/
def txPut (tx : Store) (name key : GoString) (value : Value) : Except Err Store :=
  match txBucket tx name with
  | none => .error .nilBucketPanic
  | some b =>
    if key.length = 0 then .error .ErrKeyRequired
    else if key.length > MaxKeySize then .error .ErrKeyTooLarge
    else if value.bytes.length > MaxValueSize then .error .ErrValueTooLarge
    else .ok (KV.put tx name (KV.put b key value))

/-- The call `b.Delete(key)` on the bucket called `name`; deleting an absent key is no
error. -/
def txDelete (tx : Store) (name key : GoString) : Except Err Store :=
  match txBucket tx name with
  | none => .error .nilBucketPanic
  | some b => .ok (KV.put tx name (KV.delete b key))

/-- The call `db.Update(fn)`: the writes of `fn` are committed when it returns `nil` and
rolled back when it returns an error. -/
def Update {α : Type} (db : Store) (fn : Store → Except Err (α × Store)) : Except Err α × Store :=
  match fn db with
  | .ok (a, tx) => (.ok a, tx)
  | .error e => (.error e, db)

/-- A bbolt cursor over a bucket: the index of the element it stands on, `none` as long as it
has not been positioned (bbolt: an empty `stack`). -/
structure Cursor where
  bucket : Bucket
  stack : Option Nat

/-- The call `b.Cursor()`: a new cursor, not positioned. -/
def newCursor (b : Bucket) : Cursor := { bucket := b, stack := none }

/-- The call `c.Seek(seek)`: move to the first key `≥ seek`; `none` is the nil key. -/
def Cursor.Seek (c : Cursor) (seek : GoString) : Option (GoString × Value) × Cursor :=
  let i := (c.bucket.takeWhile (fun e => bytesLt e.1 seek)).length
  (c.bucket.get? i, { c with stack := some i })

/-- The call `c.Next()`: move to the following element.  On a cursor that has not been
positioned there is no element to move from and bbolt returns the nil key. -/
def Cursor.Next (c : Cursor) : Option (GoString × Value) × Cursor :=
  match c.stack with
  | none => (none, c)
  | some i => (c.bucket.get? (i + 1), { c with stack := some (i + 1) })

/-- The variable `RESERVED_BUCKET_NAMES`. -/
def RESERVED_BUCKET_NAMES : List GoString :=
  [str "cis", str "citypes", str "cisbytype", str "reltypes", str "reltypeindex",
   str "relsincoming", str "relsoutgoing"]

/-- The function `NewDB`, on the content `file` of the file at `path` (`[]` for a new file):
the seven reserved buckets are created where absent. -/
def NewDB (file : Store) : Except Err Store :=
  (Update file fun tx => do
    let tx ← CreateBucketIfNotExists tx (str "cis")
    let tx ← CreateBucketIfNotExists tx (str "cisbytype")
    let tx ← CreateBucketIfNotExists tx (str "citypes")
    let tx ← CreateBucketIfNotExists tx (str "reltypes")
    let tx ← CreateBucketIfNotExists tx (str "reltypeindex")
    let tx ← CreateBucketIfNotExists tx (str "relsincoming")
    let tx ← CreateBucketIfNotExists tx (str "relsoutgoing")
    pure (tx, tx)).1

/-- The function `guardName`. -/
def guardName (name : GoString) : Except Err Unit :=
  if RESERVED_BUCKET_NAMES.any (fun reserved => decide (name = reserved)) then
    .error .ErrReservedBucketName
  else .ok ()

/-! ## The CI store (`configuration_item.go`) -/

/-- The method `createOrGetCIType`. -/
def createOrGetCIType (db : Store) (hash : GoString) : Except Err ConfigurationItemType × Store :=
  Update db fun tx =>
    match txBucket tx (str "citypes") with
    | none => .error .ErrBucketNotFound
    | some b =>
      match KV.get b hash with
      | none => do
        let tx ← txPut tx (str "citypes") hash (.raw [])
        pure ({ ID := hash, Name := [] }, tx)
      | some ciTypeBytes => .ok ({ ID := hash, Name := ciTypeBytes.bytes }, tx)

/-- The method `writeCI`. -/
def writeCI (db : Store) (ci : ConfigurationItem) : Except Err Unit × Store :=
  Update db fun tx =>
    match txBucket tx (str "cis") with
    | none => .error .ErrBucketNotFound
    | some _ =>
      match txBucket tx (str "cisbytype") with
      | none => .error .ErrBucketNotFound
      | some _ => do
        let ciBytes := Value.ci ci
        let tx ← txPut tx (str "cisbytype") (ci.Type_.ID ++ str ":" ++ ci.ID) (.raw [])
        let tx ← txPut tx (str "cis") ci.ID ciBytes
        pure ((), tx)

/-- The method `AddCI`.  `newID` is the identifier `ulid.Make().String()` returns; `s1`, `s2`
are the seeds of the `range` statements of `normalizeData`, `s3` that of `hashData`. -/
def AddCI (U : GoString → GoString) (s1 s2 s3 : Nat) (newID : GoString) (db : Store)
    (data : GoMap) : Except Err ConfigurationItem × Store :=
  let normalizedData := normalizeData U s1 s2 data
  let datahash := hashData s3 normalizedData
  match createOrGetCIType db datahash with
  | (.error err, db) => (.error err, db)
  | (.ok cit, db) =>
    let ci : ConfigurationItem := { ID := newID, Version := 0, Data := data, Type_ := cit }
    match writeCI db ci with
    | (.error err, db) => (.error err, db)
    | (.ok _, db) => (.ok ci, db)

/-- The method `GetCI`. -/
def GetCI (db : Store) (id : GoString) : Except Err ConfigurationItem :=
  match txBucket db (str "cis") with
  | none => .error .ErrBucketNotFound
  | some b =>
    match KV.get b id with
    | none => .error .ErrKeyNotFound
    | some ciBytes => unmarshalCI (some ciBytes)

/-- The loop of `GetCIsByType`: `k` is the key the cursor `c` stands on, and every key with
the prefix is handed, whole, to `GetCI`.  `fuel` bounds the number of iterations; the bucket's
length plus one is never used up. -/
def GetCIsByType.loop (db : Store) (pre : GoString) :
    Nat → Option (GoString × Value) → Cursor → List ConfigurationItem →
      Except Err (List ConfigurationItem)
  | 0, _, _, cis => .ok cis
  | fuel + 1, kv, c, cis =>
    match kv with
    | none => .ok cis
    | some (k, _) =>
      if hasPrefix k pre then
        match GetCI db k with
        | .error err => .error err
        | .ok ci => GetCIsByType.loop db pre fuel c.Next.1 c.Next.2 (cis ++ [ci])
      else .ok cis

/-- The method `GetCIsByType`. -/
def GetCIsByType (db : Store) (id : GoString) : Except Err (List ConfigurationItem) :=
  match txBucket db (str "cisbytype") with
  | none => .error .ErrBucketNotFound
  | some b =>
    let c := newCursor b
    GetCIsByType.loop db id (b.length + 1) (c.Seek id).1 (c.Seek id).2 []

/-- The method `UpdateCI`. -/
def UpdateCI (U : GoString → GoString) (s1 s2 s3 : Nat) (db : Store) (id : GoString)
    (data : GoMap) : Except Err Unit × Store :=
  let normalizedData := normalizeData U s1 s2 data
  let dataHash := hashData s3 normalizedData
  match GetCI db id with
  | .error err => (.error err, db)
  | .ok ci =>
    match createOrGetCIType db dataHash with
    | (.error err, db) => (.error err, db)
    | (.ok cit, db) => writeCI db { ci with Data := normalizedData, Type_ := cit }

/-- The call `b.ForEach` with a closure that decodes each value as a `ConfigurationItem` and
appends it; the first error ends the iteration. -/
def forEachCI : Bucket → List ConfigurationItem → Except Err (List ConfigurationItem)
  | [], cis => .ok cis
  | (_, v) :: t, cis =>
    match unmarshalCI (some v) with
    | .error err => .error err
    | .ok ci => forEachCI t (cis ++ [ci])

/-- The method `GetCis`: it iterates the bucket `nodes`. -/
def GetCis (db : Store) : Except Err (List ConfigurationItem) :=
  match txBucket db (str "nodes") with
  | none => .error .ErrBucketNotFound
  | some b => forEachCI b []

/-- The method `GetCITypes`. -/
def GetCITypes (db : Store) : Except Err (List ConfigurationItemType) :=
  match txBucket db (str "citypes") with
  | none => .error .ErrBucketNotFound
  | some b => .ok (b.map (fun kv => { ID := kv.1, Name := kv.2.bytes }))

/-- The method `UpdateCITypeName`. -/
def UpdateCITypeName (db : Store) (id name : GoString) : Except Err Unit × Store :=
  Update db fun tx =>
    match txBucket tx (str "citypes") with
    | none => .error .ErrBucketNotFound
    | some _ => do
      let tx ← txPut tx (str "citypes") id (.raw name)
      pure ((), tx)

/-! ## The relationship store (`relationship.go`) -/

/-- The function `normalizeRelationshipName`. -/
def normalizeRelationshipName (U : GoString → GoString) (relationship : GoString) : GoString :=
  ToLower U relationship

/-- The method `writeRel`.  The bucket handles of the source are bucket names here: two
handles of one name are one bucket. -/
def writeRel (U : GoString → GoString) (db : Store) (rel : Relationship) :
    Except Err Unit × Store :=
  let rel := { rel with Relationship := normalizeRelationshipName U rel.Relationship }
  let relBytes := Value.rel rel
  Update db fun tx => do
    let tx ← CreateBucketIfNotExists tx rel.Relationship
    let tx ← txPut tx (str "reltypes") rel.Relationship (.raw [])
    let tx ← txPut tx (str "reltypeindex") rel.ID (.raw rel.Relationship)
    let tx ← txPut tx (str "relsincoming") (rel.To ++ str ":" ++ rel.From) relBytes
    let tx ← txPut tx (str "relsoutgoing") (rel.From ++ str ":" ++ rel.To) relBytes
    let tx ← txPut tx rel.Relationship rel.ID relBytes
    pure ((), tx)

/-- The method `AddRelationship`. -/
def AddRelationship (U : GoString → GoString) (db : Store) (from_ to_ relationship : GoString)
    (data : GoMap) : Except Err Relationship × Store :=
  match guardName relationship with
  | .error err => (.error err, db)
  | .ok _ =>
    let relationship := normalizeRelationshipName U relationship
    let rel : Relationship :=
      { ID := from_ ++ str ":" ++ to_, From := from_, To := to_, Relationship := relationship,
        Version := 0, Data := data }
    match writeRel U db rel with
    | (.error err, db) => (.error err, db)
    | (.ok _, db) => (.ok rel, db)

/-- The method `getRelationshipBucket`: the bucket name is read from the bucket `rels` under
the key `"index:" + relID`; where that bucket or key is missing the name stays empty. -/
def getRelationshipBucket (db : Store) (relID : GoString) : Except Err GoString :=
  let bucket : GoString :=
    match txBucket db (str "rels") with
    | none => []
    | some m =>
      match KV.get m (str "index:" ++ relID) with
      | none => []
      | some v => v.bytes
  if bucket = [] then .error .ErrKeyNotFound else .ok bucket

/-- The method `GetRelationship`. -/
def GetRelationship (db : Store) (id : GoString) : Except Err Relationship :=
  match getRelationshipBucket db id with
  | .error err => .error err
  | .ok relbucket =>
    match txBucket db relbucket with
    | none => .error .ErrBucketNotFound
    | some b =>
      match KV.get b id with
      | none => .error .ErrKeyNotFound
      | some edgeBytes => unmarshalRel (some edgeBytes)

/-- One `for` loop of `GetRelationshipsByCI` over the bucket `b`: `kv` is the pair `k, v` of
the loop, `string(k)` of the nil key being `""`; the post statement calls `Next` on a new
cursor, `b.Cursor().Next()`.  `fuel` bounds the number of iterations. -/
def GetRelationshipsByCI.loop (b : Bucket) (pre : GoString) :
    Nat → Option (GoString × Value) → List Relationship → Except Err (List Relationship)
  | 0, _, rels => .ok rels
  | fuel + 1, kv, rels =>
    if hasPrefix ((kv.map Prod.fst).getD []) pre then
      match unmarshalRel (kv.map Prod.snd) with
      | .error err => .error err
      | .ok rel => GetRelationshipsByCI.loop b pre fuel (newCursor b).Next.1 (rels ++ [rel])
    else .ok rels

/-- The method `GetRelationshipsByCI`. -/
def GetRelationshipsByCI (db : Store) (id : GoString) : Except Err (List Relationship) :=
  match txBucket db (str "relsoutgoing") with
  | none => .error .ErrBucketNotFound
  | some ob =>
    match txBucket db (str "relsincoming") with
    | none => .error .ErrBucketNotFound
    | some ib =>
      match GetRelationshipsByCI.loop ob (id ++ str ":") (ob.length + 1)
          ((newCursor ob).Seek (id ++ str ":")).1 [] with
      | .error err => .error err
      | .ok rels =>
        GetRelationshipsByCI.loop ib (id ++ str ":") (ib.length + 1)
          ((newCursor ib).Seek (id ++ str ":")).1 rels

/-- The method `DeleteRelationship`.  `getRelationshipBucket` opens its own read transaction
and sees the committed state `db`. -/
def DeleteRelationship (db : Store) (id : GoString) : Except Err Unit × Store :=
  Update db fun tx =>
    match getRelationshipBucket db id with
    | .error err => .error err
    | .ok relbucket =>
      match txBucket tx relbucket with
      | none => .error .nilBucketPanic
      | some rels =>
        match unmarshalRel (KV.get rels id) with
        | .error err => .error err
        | .ok rel =>
          match txBucket tx (str "reltypeindex") with
          | none => .error .ErrBucketNotFound
          | some _ => do
            let tx ← txDelete tx (str "reltypeindex") id
            match txBucket tx (str "relsincoming") with
            | none => .error .ErrBucketNotFound
            | some _ => do
              let tx ← txDelete tx (str "relsincoming") (rel.To ++ str ":" ++ rel.From)
              match txBucket tx (str "relsoutgoing") with
              | none => .error .ErrBucketNotFound
              | some _ => do
                let tx ← txDelete tx (str "relsoutgoing") (rel.From ++ str ":" ++ rel.To)
                let tx ← txDelete tx relbucket id
                pure ((), tx)

/-- The loop of `DeleteCI` over the edges found: each `DeleteRelationship` is a transaction
of its own, and the first error ends the loop. -/
def DeleteCI.loop : List Relationship → Store → Except Err Unit × Store
  | [], db => (.ok (), db)
  | rel :: rels, db =>
    match DeleteRelationship db rel.ID with
    | (.error err, db) => (.error err, db)
    | (.ok _, db) => DeleteCI.loop rels db

/-- The method `DeleteCI` (`configuration_item.go`). -/
def DeleteCI (db : Store) (id : GoString) : Except Err Unit × Store :=
  match GetRelationshipsByCI db id with
  | .error err => (.error err, db)
  | .ok rels =>
    match DeleteCI.loop rels db with
    | (.error err, db) => (.error err, db)
    | (.ok _, db) =>
      Update db fun tx =>
        match txBucket tx (str "cis") with
        | none => .error .ErrBucketNotFound
        | some _ => do
          let tx ← txDelete tx (str "cis") id
          pure ((), tx)

/-- The statement `rel.Version++` on a 64-bit Go `int`: it wraps around. -/
def incrInt (v : Int) : Int := (v + 1 + 2 ^ 63) % 2 ^ 64 - 2 ^ 63

/-- The method `UpdateRelationship`. -/
def UpdateRelationship (U : GoString → GoString) (db : Store) (id : GoString) (data : GoMap) :
    Except Err Relationship × Store :=
  match GetRelationship db id with
  | .error err => (.error err, db)
  | .ok rel =>
    let rel := { rel with Version := incrInt rel.Version, Data := data }
    match writeRel U db rel with
    | (.error err, db) => (.error err, db)
    | (.ok _, db) => (.ok rel, db)

/-- The call `b.ForEach` with a closure that decodes each value as a `Relationship` and
appends it; the first error ends the iteration. -/
def forEachRel : Bucket → List Relationship → Except Err (List Relationship)
  | [], rels => .ok rels
  | (_, v) :: t, rels =>
    match unmarshalRel (some v) with
    | .error err => .error err
    | .ok rel => forEachRel t (rels ++ [rel])

/-- The method `GetRelationshipTypes`. -/
def GetRelationshipTypes (db : Store) : Except Err (List GoString) :=
  match txBucket db (str "reltypes") with
  | none => .error .ErrBucketNotFound
  | some b => .ok (b.map Prod.fst)

/-- The method `GetRelationshipsByType`. -/
def GetRelationshipsByType (U : GoString → GoString) (db : Store) (relationship : GoString) :
    Except Err (List Relationship) :=
  match txBucket db (normalizeRelationshipName U relationship) with
  | none => .error .ErrBucketNotFound
  | some b => forEachRel b []

/-- The method `GetRelationships`: it iterates the bucket `rels`. -/
def GetRelationships (db : Store) : Except Err (List Relationship) :=
  match txBucket db (str "rels") with
  | none => .error .ErrBucketNotFound
  | some b => forEachRel b []

/-! ## Concrete inputs -/

/-- The store `NewDB` leaves in a new file: the seven reserved buckets, all empty. -/
def freshDB : Store :=
  [(str "cis", []), (str "cisbytype", []), (str "citypes", []), (str "relsincoming", []),
   (str "relsoutgoing", []), (str "reltypeindex", []), (str "reltypes", [])]

/-- The labels of the first configuration item of `example/main.go`. -/
def web01 : GoMap := [(str "hostname", str "web01"), (str "ip", str "192.168.0.100")]

/-- The labels of the second configuration item of `example/main.go`. -/
def web02 : GoMap := [(str "hostname", str "web02"), (str "ip", str "192.168.0.101")]

/-- A one-label map. -/
def hostA : GoMap := [(str "hostname", str "a")]

/-- Another map with the same key. -/
def hostB : GoMap := [(str "hostname", str "b")]

/-- A label whose value is the single byte `0xFF`, which is not UTF-8. -/
def noteFF : GoMap := [(str "note", [0xFF])]

/-- Three identifiers as `ulid.Make().String()` returns them. -/
def ulid1 : GoString := str "01ARZ3NDEKTSV4RRFFQ69G5FAV"

/-- See `ulid1`. -/
def ulid2 : GoString := str "01ARZ3NDEKTSV4RRFFQ69G5FAW"

/-- See `ulid1`. -/
def ulid3 : GoString := str "01ARZ3NDEKTSV4RRFFQ69G5FAX"

/-- The labels of the relationship of `example/main.go`. -/
def masterWeb02 : GoMap := [(str "master", str "web02")]

/-- The edge `AddRelationship` returns for `ulid1`, `ulid2`, `"connected-to"`. -/
def edge12 : Relationship :=
  { ID := ulid1 ++ str ":" ++ ulid2, From := ulid1, To := ulid2,
    Relationship := str "connected-to", Version := 0, Data := masterWeb02 }

/-- The edge `AddRelationship` returns for `ulid1`, `ulid3`, `"connected-to"`. -/
def edge13 : Relationship :=
  { ID := ulid1 ++ str ":" ++ ulid3, From := ulid1, To := ulid3,
    Relationship := str "connected-to", Version := 0, Data := [] }

/-- The edge `AddRelationship` returns for `ulid1`, `ulid2` and the type name `"CIS"`. -/
def edgeCIS : Relationship :=
  { ID := ulid1 ++ str ":" ++ ulid2, From := ulid1, To := ulid2,
    Relationship := str "cis", Version := 0, Data := [] }

/-- See `ulid1`. -/
def ulid4 : GoString := str "01ARZ3NDEKTSV4RRFFQ69G5FAY"

/-- The edge `AddRelationship` returns for `ulid4`, `ulid1`, `"connected-to"`. -/
def edge41 : Relationship :=
  { ID := ulid4 ++ str ":" ++ ulid1, From := ulid4, To := ulid1,
    Relationship := str "connected-to", Version := 0, Data := [] }

/-- The edge `AddRelationship` returns for `ulid1`, `ulid2`, `"uses"`. -/
def edgeUses : Relationship :=
  { ID := ulid1 ++ str ":" ++ ulid2, From := ulid1, To := ulid2,
    Relationship := str "uses", Version := 0, Data := [] }

/-- The edge `AddRelationship` returns for `ulid1`, `ulid2`, `"owns"`. -/
def edgeOwns : Relationship :=
  { ID := ulid1 ++ str ":" ++ ulid2, From := ulid1, To := ulid2,
    Relationship := str "owns", Version := 0, Data := [] }

/-- A one-label map with another key than `hostA`. -/
def ipLabels : GoMap := [(str "ip", str "10.0.0.1")]

/-- New labels for the relationship of `example/main.go`. -/
def masterWeb03 : GoMap := [(str "master", str "web03")]

/-- The call `AddCI(hostA)` on a new store, the id minted being `ulid1`. -/
def addHostA (U : GoString → GoString) : Except Err ConfigurationItem × Store :=
  AddCI U 0 0 0 ulid1 freshDB hostA

/-- After `addHostA`: the call `AddRelationship(ulid1, ulid2, "connected-to", masterWeb02)`. -/
def addEdge12 (U : GoString → GoString) : Except Err Relationship × Store :=
  AddRelationship U (addHostA U).2 ulid1 ulid2 (str "connected-to") masterWeb02

/-- After `addEdge12`: the call `AddRelationship(ulid1, ulid3, "connected-to", {})`. -/
def addEdge13 (U : GoString → GoString) : Except Err Relationship × Store :=
  AddRelationship U (addEdge12 U).2 ulid1 ulid3 (str "connected-to") []

/-- After `addEdge13`: the call `AddRelationship(ulid4, ulid1, "connected-to", {})`. -/
def addEdge41 (U : GoString → GoString) : Except Err Relationship × Store :=
  AddRelationship U (addEdge13 U).2 ulid4 ulid1 (str "connected-to") []

/-- The call `AddRelationship(ulid1, ulid2, "uses", {})` on a new store. -/
def addUses (U : GoString → GoString) : Except Err Relationship × Store :=
  AddRelationship U freshDB ulid1 ulid2 (str "uses") []

/-- After `addUses`: the same ordered pair again, `AddRelationship(ulid1, ulid2, "owns", {})`. -/
def addOwns (U : GoString → GoString) : Except Err Relationship × Store :=
  AddRelationship U (addUses U).2 ulid1 ulid2 (str "owns") []

/-- After `addHostA`: the call `UpdateCI(ulid1, ipLabels)`. -/
def updateHostA (U : GoString → GoString) : Except Err Unit × Store :=
  UpdateCI U 0 0 0 (addHostA U).2 ulid1 ipLabels

/-- The first call of `example/main.go`, `AddCI(web01)`, on a new store, with the keys visited
in ascending order in `hashData`. -/
def addWeb01 (U : GoString → GoString) : Except Err ConfigurationItem × Store :=
  AddCI U 0 0 0 ulid1 freshDB web01

/-- After `addWeb01`: the call `UpdateCITypeName(md5("hostnameip"), "webserver")`, the rename
of the type of `web01`. -/
def renameWeb01 (U : GoString → GoString) : Except Err Unit × Store :=
  UpdateCITypeName (addWeb01 U).2 (md5Sum (str "hostnameip")) (str "webserver")

/-- After `renameWeb01`: the call `AddCI(web02)`, which has the keys of `web01`, with the keys
visited as `ip`, `hostname` in `hashData` (seed `1`). -/
def addWeb02 (U : GoString → GoString) : Except Err ConfigurationItem × Store :=
  AddCI U 0 0 1 ulid2 (renameWeb01 U).2 web02

/-- After `renameWeb01`: the call `AddCI(web02)` with the keys visited in ascending order in
`hashData` (seed `0`). -/
def addWeb02Sorted (U : GoString → GoString) : Except Err ConfigurationItem × Store :=
  AddCI U 0 0 0 ulid2 (renameWeb01 U).2 web02

/-- The value stored under `key` in the bucket `name`, if both exist. -/
def stored (db : Store) (name key : GoString) : Option Value :=
  (txBucket db name).bind (fun b => KV.get b key)

/-- The keys of the bucket `name`, ascending. -/
def bucketKeys (db : Store) (name : GoString) : Option (List GoString) :=
  (txBucket db name).map (fun b => b.map Prod.fst)

/-- The type id the specification describes: the digest of the lower-cased key set, sorted
ascending and concatenated without separator. -/
def deriveTypeIdSpec (U : GoString → GoString) (data : GoMap) : GoString :=
  md5Sum ((sortStrings ((GoMap.keys data).map (ToLower U)).dedup).foldl
    (fun labelsString k => labelsString ++ k) [])

/-- The type id of a returned configuration item. -/
def typeIdOf (r : Except Err ConfigurationItem) : Except Err GoString :=
  r.map (fun c => c.Type_.ID)

/-! ## Type derivation and the adjacency scan: the notions of the claims -/

/-- The string `labelsString` of `hashData` at the end of its loop: the byte string the
function hands to `md5.Sum`. -/
def labelsString (s : Nat) (data : GoMap) : GoString :=
  (GoMap.keys (rangeOrder s data)).foldl (fun labelsString k => labelsString ++ k) []

/-- The lower-cased keys of a label map. -/
def loweredKeys (U : GoString → GoString) (data : GoMap) : List GoString :=
  (GoMap.keys data).map (ToLower U)

/-- Two lists of keys hold the same set of keys. -/
def sameKeySet (l1 l2 : List GoString) : Bool :=
  l1.all (fun k => decide (k ∈ l2)) && l2.all (fun k => decide (k ∈ l1))

/-- A prefix code: no key is empty and no key is the beginning of another one. -/
def isPrefixCode (l : List GoString) : Bool :=
  l.all (fun a => a != [] && l.all (fun b => !hasPrefix b a || a == b))

/-- The label map with the one key `ab`. -/
def labelsAB : GoMap := [(str "ab", str "1")]

/-- The label map with the two keys `a` and `b`. -/
def labelsA_B : GoMap := [(str "a", str "1"), (str "b", str "2")]

/-- No byte of `s` is the colon. -/
def colonFree (s : GoString) : Bool := s.all (fun c => c != 58)

/-- An id without a colon that is valid UTF-8, as the ids `ulid.Make().String()` mints are. -/
def cleanId (s : GoString) : Bool := colonFree s && validUTF8 s

/-- The stores built from a new store by `AddRelationship` calls whose two ids satisfy `ok`. -/
inductive BuiltByAdd (U : GoString → GoString) (ok : GoString → Bool) : Store → Prop where
  | fresh : BuiltByAdd U ok freshDB
  | add {db : Store} (from_ to_ ty : GoString) (data : GoMap) :
      BuiltByAdd U ok db → ok from_ = true → ok to_ = true →
      BuiltByAdd U ok (AddRelationship U db from_ to_ ty data).2

/-- An entry of an adjacency bucket: the record of an edge with clean ids, under the key
`from:to` or `to:from`. -/
def AdjEntry (kv : GoString × Value) : Prop :=
  ∃ r : Relationship, kv.2 = .rel r ∧ cleanId r.From = true ∧ cleanId r.To = true
    ∧ (kv.1 = r.From ++ str ":" ++ r.To ∨ kv.1 = r.To ++ str ":" ++ r.From)

/-- Every entry of `relsoutgoing` and of `relsincoming` is an `AdjEntry`. -/
def AdjInv (db : Store) : Prop :=
  ∀ name, (name = str "relsoutgoing" ∨ name = str "relsincoming") →
    ∀ b, txBucket db name = some b → ∀ kv ∈ b, AdjEntry kv

/-! ## Lemmas: byte order and key/value lists -/

theorem u8_lt_iff (a b : UInt8) : a < b ↔ a.toNat < b.toNat := Iff.rfl

theorem u8_eq_iff (a b : UInt8) : a = b ↔ a.toNat = b.toNat :=
  ⟨fun h => h ▸ rfl, fun h => UInt8.ext h⟩

theorem bytesLt_irrefl (a : GoString) : bytesLt a a = false := by
  induction a with
  | nil => rfl
  | cons x t ih => simp [bytesLt, ih, u8_lt_iff]

theorem bytesLt_trans {a b c : GoString} (h1 : bytesLt a b = true) (h2 : bytesLt b c = true) :
    bytesLt a c = true := by
  induction a generalizing b c with
  | nil =>
    cases b with
    | nil => simp [bytesLt] at h1
    | cons y t =>
      cases c with
      | nil => simp [bytesLt] at h2
      | cons z u => simp [bytesLt]
  | cons x s ih =>
    cases b with
    | nil => simp [bytesLt] at h1
    | cons y t =>
      cases c with
      | nil => simp [bytesLt] at h2
      | cons z u =>
        simp only [bytesLt, Bool.or_eq_true, Bool.and_eq_true, decide_eq_true_eq,
          beq_iff_eq, u8_lt_iff] at h1 h2 ⊢
        rcases h1 with h1 | ⟨h1, h1'⟩ <;> rcases h2 with h2 | ⟨h2, h2'⟩
        · left; omega
        · left; rw [← h2]; exact h1
        · left; rw [h1]; exact h2
        · right; exact ⟨h1.trans h2, ih h1' h2'⟩

theorem bytesLt_connex {a b : GoString} (hne : a ≠ b) (h : bytesLt a b = false) :
    bytesLt b a = true := by
  induction a generalizing b with
  | nil =>
    cases b with
    | nil => exact absurd rfl hne
    | cons y t => simp [bytesLt] at h
  | cons x s ih =>
    cases b with
    | nil => simp [bytesLt]
    | cons y t =>
      simp only [bytesLt, Bool.or_eq_false_iff, Bool.and_eq_false_imp, decide_eq_false_iff_not,
        beq_iff_eq, Bool.or_eq_true, Bool.and_eq_true, decide_eq_true_eq, u8_lt_iff] at h ⊢
      obtain ⟨h1, h2⟩ := h
      by_cases hxy : x = y
      · right
        refine ⟨hxy.symm, ih ?_ (h2 hxy)⟩
        intro hst
        exact hne (by rw [hxy, hst])
      · left
        have : x.toNat ≠ y.toNat := fun e => hxy (UInt8.ext e)
        omega

theorem bytesLt_ne {a b : GoString} (h : bytesLt a b = true) : a ≠ b := by
  intro e
  rw [e, bytesLt_irrefl] at h
  exact Bool.false_ne_true h

theorem KV.get_put_self {α : Type} (l : List (GoString × α)) (k : GoString) (v : α) :
    KV.get (KV.put l k v) k = some v := by
  induction l with
  | nil => simp [KV.put, KV.get]
  | cons e t ih =>
    obtain ⟨k', v'⟩ := e
    by_cases h1 : k = k'
    · simp [KV.put, KV.get, h1]
    · by_cases h2 : bytesLt k k' = true
      · simp [KV.put, KV.get, h1, h2]
      · simp [KV.put, KV.get, h1, h2, ih, Ne.symm h1]

theorem KV.get_put_ne {α : Type} (l : List (GoString × α)) (k k0 : GoString) (v : α)
    (h : k0 ≠ k) : KV.get (KV.put l k v) k0 = KV.get l k0 := by
  induction l with
  | nil => simp [KV.put, KV.get, Ne.symm h]
  | cons e t ih =>
    obtain ⟨k', v'⟩ := e
    by_cases h1 : k = k'
    · subst h1
      simp [KV.put, KV.get, Ne.symm h]
    · by_cases h2 : bytesLt k k' = true
      · simp [KV.put, KV.get, h1, h2, Ne.symm h]
      · simp [KV.put, KV.get, h1, h2, ih]

theorem KV.put_cons_eq {α : Type} (k' : GoString) (v' : α) (t : List (GoString × α))
    (v : α) : KV.put ((k', v') :: t) k' v = (k', v) :: t := by
  simp [KV.put]

theorem KV.put_cons_lt {α : Type} {k k' : GoString} (v' : α) (t : List (GoString × α))
    (v : α) (h1 : k ≠ k') (h2 : bytesLt k k' = true) :
    KV.put ((k', v') :: t) k v = (k, v) :: (k', v') :: t := by
  simp [KV.put, h1, h2]

theorem KV.put_cons_gt {α : Type} {k k' : GoString} (v' : α) (t : List (GoString × α))
    (v : α) (h1 : k ≠ k') (h2 : ¬ bytesLt k k' = true) :
    KV.put ((k', v') :: t) k v = (k', v') :: KV.put t k v := by
  simp [KV.put, h1, h2]

theorem KV.mem_put {α : Type} {l : List (GoString × α)} {k : GoString} {v : α}
    {e : GoString × α} (h : e ∈ KV.put l k v) : e = (k, v) ∨ e ∈ l := by
  induction l with
  | nil => simpa [KV.put] using h
  | cons x t ih =>
    obtain ⟨k', v'⟩ := x
    by_cases h1 : k = k'
    · subst h1
      rw [KV.put_cons_eq] at h
      rcases List.mem_cons.1 h with h | h
      · exact Or.inl h
      · exact Or.inr (List.mem_cons_of_mem _ h)
    · by_cases h2 : bytesLt k k' = true
      · rw [KV.put_cons_lt v' t v h1 h2] at h
        rcases List.mem_cons.1 h with h | h
        · exact Or.inl h
        · exact Or.inr h
      · rw [KV.put_cons_gt v' t v h1 h2] at h
        rcases List.mem_cons.1 h with h | h
        · exact Or.inr (h ▸ List.mem_cons_self _ _)
        · rcases ih h with h | h
          · exact Or.inl h
          · exact Or.inr (List.mem_cons_of_mem _ h)

theorem KV.sorted_put {α : Type} {l : List (GoString × α)} (hl : KV.Sorted l) (k : GoString)
    (v : α) : KV.Sorted (KV.put l k v) := by
  induction l with
  | nil => simp [KV.put, KV.Sorted]
  | cons x t ih =>
    obtain ⟨k', v'⟩ := x
    have hl' := hl
    unfold KV.Sorted at hl
    rw [List.pairwise_cons] at hl
    obtain ⟨hx, ht⟩ := hl
    by_cases h1 : k = k'
    · subst h1
      rw [KV.put_cons_eq]
      exact List.pairwise_cons.2 ⟨hx, ht⟩
    · by_cases h2 : bytesLt k k' = true
      · rw [KV.put_cons_lt v' t v h1 h2]
        refine List.pairwise_cons.2 ⟨?_, hl'⟩
        intro y hy
        rcases List.mem_cons.1 hy with hy | hy
        · rw [hy]; exact h2
        · exact bytesLt_trans h2 (hx y hy)
      · rw [KV.put_cons_gt v' t v h1 h2]
        refine List.pairwise_cons.2 ⟨?_, ih ht⟩
        intro y hy
        rcases KV.mem_put hy with hy | hy
        · rw [hy]
          exact bytesLt_connex h1 (by simpa using h2)
        · exact hx y hy

theorem KV.get_eq_none_of_forall_lt {α : Type} {l : List (GoString × α)} {k : GoString}
    (h : ∀ y ∈ l, bytesLt k y.1 = true) : KV.get l k = none := by
  induction l with
  | nil => rfl
  | cons x t ih =>
    obtain ⟨k', v'⟩ := x
    have h0 : k ≠ k' := bytesLt_ne (h (k', v') (List.mem_cons_self _ _))
    simp only [KV.get, Ne.symm h0, if_false]
    exact ih (fun y hy => h y (List.mem_cons_of_mem _ hy))

theorem KV.get_of_mem {α : Type} {l : List (GoString × α)} (hl : KV.Sorted l) {k : GoString}
    {v : α} (h : (k, v) ∈ l) : KV.get l k = some v := by
  induction l with
  | nil => cases h
  | cons x t ih =>
    obtain ⟨k', v'⟩ := x
    unfold KV.Sorted at hl
    rw [List.pairwise_cons] at hl
    obtain ⟨hx, ht⟩ := hl
    rcases List.mem_cons.1 h with h | h
    · cases h
      simp [KV.get]
    · have : k' ≠ k := bytesLt_ne (hx (k, v) h)
      simp only [KV.get, this, if_false]
      exact ih ht h

theorem KV.mem_of_get {α : Type} {l : List (GoString × α)} {k : GoString} {v : α}
    (h : KV.get l k = some v) : (k, v) ∈ l := by
  induction l with
  | nil => simp [KV.get] at h
  | cons x t ih =>
    obtain ⟨k', v'⟩ := x
    by_cases h1 : k' = k
    · simp only [KV.get, h1, if_true, Option.some.injEq] at h
      rw [h1, h]
      exact List.mem_cons_self _ _
    · simp only [KV.get, h1, if_false] at h
      exact List.mem_cons_of_mem _ (ih h)

theorem KV.delete_cons {α : Type} (k' : GoString) (v' : α) (t : List (GoString × α))
    (k : GoString) :
    KV.delete ((k', v') :: t) k = if k' = k then KV.delete t k else (k', v') :: KV.delete t k := by
  by_cases h : k' = k <;> simp [KV.delete, List.filter, h]

theorem KV.get_delete_self {α : Type} (l : List (GoString × α)) (k : GoString) :
    KV.get (KV.delete l k) k = none := by
  induction l with
  | nil => rfl
  | cons x t ih =>
    obtain ⟨k', v'⟩ := x
    rw [KV.delete_cons]
    by_cases h1 : k' = k
    · rw [if_pos h1]; exact ih
    · rw [if_neg h1]; simp only [KV.get, h1, if_false]; exact ih

theorem KV.get_delete_ne {α : Type} (l : List (GoString × α)) (k k0 : GoString) (h : k0 ≠ k) :
    KV.get (KV.delete l k) k0 = KV.get l k0 := by
  induction l with
  | nil => rfl
  | cons x t ih =>
    obtain ⟨k', v'⟩ := x
    rw [KV.delete_cons]
    by_cases h1 : k' = k
    · have h3 : k' ≠ k0 := fun e => h (e ▸ h1)
      rw [if_pos h1]; simp only [KV.get, h3, if_false]; exact ih
    · rw [if_neg h1]
      by_cases h2 : k' = k0
      · simp only [KV.get, h2, if_true]
      · simp only [KV.get, h2, if_false]; exact ih

/-! ## Lemmas: iteration order and lower-casing -/

theorem perm_cons_eraseIdx {α : Type} (l : List α) (x : α) (i : Nat) (h : l.get? i = some x) :
    (x :: l.eraseIdx i).Perm l := by
  induction l generalizing i with
  | nil => simp at h
  | cons a t ih =>
    cases i with
    | zero =>
      simp at h
      subst h
      simp
    | succ j =>
      simp only [List.eraseIdx_cons_succ]
      exact (List.Perm.swap a x _).trans ((ih j (by simpa using h)).cons a)

theorem rangeOrderAux_perm {α : Type} (n seed : Nat) (l : List α) (h : l.length = n) :
    (rangeOrderAux n seed l).Perm l := by
  induction n generalizing seed l with
  | zero =>
    have : l = [] := List.length_eq_zero.1 h
    subst this
    simp [rangeOrderAux]
  | succ n ih =>
    have hlt : seed % (n + 1) < l.length := by rw [h]; exact Nat.mod_lt _ (Nat.succ_pos n)
    have hget : l.get? (seed % (n + 1)) = some (l.get ⟨seed % (n + 1), hlt⟩) :=
      List.get?_eq_get hlt
    simp only [rangeOrderAux, hget]
    have hlen : (l.eraseIdx (seed % (n + 1))).length = n := by
      rw [List.length_eraseIdx, if_pos hlt, h]
      rfl
    exact ((ih (seed / (n + 1)) _ hlen).cons _).trans (perm_cons_eraseIdx l _ _ hget)

/-- Whatever the seed, a `range` statement visits each entry of the map exactly once. -/
theorem rangeOrder_perm {α : Type} (seed : Nat) (l : List α) : (rangeOrder seed l).Perm l :=
  rangeOrderAux_perm l.length seed l rfl

theorem mem_rangeOrder {α : Type} (seed : Nat) (l : List α) (x : α) :
    x ∈ rangeOrder seed l ↔ x ∈ l :=
  (rangeOrder_perm seed l).mem_iff

theorem ToLower_ascii (U : GoString → GoString) (s : GoString) (h : isASCII s = true) :
    ToLower U s = s.map lowerByte := by
  unfold isASCII at h
  simp only [ToLower, h, if_true]

theorem lowerByte_lt (c : UInt8) (h : c < 128) : lowerByte c < 128 := by
  unfold lowerByte
  split
  · rename_i hc
    obtain ⟨h1, h2⟩ := hc
    have h1' : (65 : UInt8).toNat ≤ c.toNat := h1
    have h2' : c.toNat ≤ (90 : UInt8).toNat := h2
    have e1 : (65 : UInt8).toNat = 65 := rfl
    have e2 : (90 : UInt8).toNat = 90 := rfl
    rw [u8_lt_iff, UInt8.toNat_add]
    have e3 : (32 : UInt8).toNat = 32 := rfl
    have e4 : (128 : UInt8).toNat = 128 := rfl
    have e5 : UInt8.size = 256 := rfl
    rw [e3, e4, e5]
    omega
  · exact h

theorem isASCII_map_lowerByte (s : GoString) (h : isASCII s = true) :
    isASCII (s.map lowerByte) = true := by
  unfold isASCII at h ⊢
  rw [List.all_eq_true] at h ⊢
  intro c hc
  obtain ⟨d, hd, rfl⟩ := List.mem_map.1 hc
  have := h d hd
  simp only [decide_eq_true_eq] at this ⊢
  exact lowerByte_lt d this

/-- Lower-casing is the ASCII one, whatever the Unicode tables, on a map with ASCII keys. -/
theorem normalizeData_congr (U V : GoString → GoString) (s1 s2 : Nat) (data : GoMap)
    (h : ∀ kv ∈ data, isASCII kv.1 = true) :
    normalizeData U s1 s2 data = normalizeData V s1 s2 data := by
  have e : (rangeOrder s1 data).foldl (fun m kv => KV.put m (ToLower U kv.1) kv.2) []
      = (rangeOrder s1 data).foldl (fun m kv => KV.put m (ToLower V kv.1) kv.2) [] := by
    apply List.foldl_ext
    intro m kv hkv
    have hk := h kv ((mem_rangeOrder s1 data kv).1 hkv)
    rw [ToLower_ascii U _ hk, ToLower_ascii V _ hk]
  unfold normalizeData
  rw [e]

theorem AddCI_congr (U V : GoString → GoString) (s1 s2 s3 : Nat) (newID : GoString)
    (db : Store) (data : GoMap) (h : ∀ kv ∈ data, isASCII kv.1 = true) :
    AddCI U s1 s2 s3 newID db data = AddCI V s1 s2 s3 newID db data := by
  unfold AddCI
  rw [normalizeData_congr U V s1 s2 data h]

theorem AddRelationship_congr (U V : GoString → GoString) (db : Store)
    (from_ to_ relationship : GoString) (data : GoMap) (h : isASCII relationship = true) :
    AddRelationship U db from_ to_ relationship data
      = AddRelationship V db from_ to_ relationship data := by
  unfold AddRelationship writeRel normalizeRelationshipName
  simp only [ToLower_ascii U _ h, ToLower_ascii V _ h,
    ToLower_ascii U _ (isASCII_map_lowerByte _ h), ToLower_ascii V _ (isASCII_map_lowerByte _ h)]

/-! ## Lemmas: UTF-8 and the JSON round trip -/

theorem toValidUTF8Aux_of_valid (n : Nat) (s : GoString) (h : validUTF8Aux n s = true) :
    toValidUTF8Aux n s = s := by
  induction n generalizing s with
  | zero =>
    cases s with
    | nil => rfl
    | cons b t => simp [validUTF8Aux] at h
  | succ n ih =>
    cases s with
    | nil => rfl
    | cons b t =>
      simp only [validUTF8Aux] at h
      simp only [toValidUTF8Aux]
      cases hw : runeWidth (b :: t) with
      | zero => rw [hw] at h; simp at h
      | succ w =>
        rw [hw] at h
        simp only at h ⊢
        rw [ih _ h]
        exact List.take_append_drop _ _

/-- Valid UTF-8 passes through JSON unchanged. -/
theorem toValidUTF8_of_valid (s : GoString) (h : validUTF8 s = true) : toValidUTF8 s = s :=
  toValidUTF8Aux_of_valid s.length s h

theorem KV.sorted_foldl_put (m : GoMap) (f g : GoString → GoString) (acc : GoMap)
    (h : KV.Sorted acc) :
    KV.Sorted (m.foldl (fun acc kv => KV.put acc (f kv.1) (g kv.2)) acc) := by
  induction m generalizing acc with
  | nil => exact h
  | cons x t ih => exact ih _ (KV.sorted_put h _ _)

theorem KV.mem_foldl_put (m : GoMap) (acc : GoMap) (e : GoString × GoString)
    (h : e ∈ m.foldl (fun acc kv => KV.put acc kv.1 kv.2) acc) : e ∈ acc ∨ e ∈ m := by
  induction m generalizing acc with
  | nil => exact Or.inl h
  | cons x t ih =>
    rcases ih _ h with h | h
    · rcases KV.mem_put h with h | h
      · exact Or.inr (h ▸ List.mem_cons_self _ _)
      · exact Or.inl h
    · exact Or.inr (List.mem_cons_of_mem _ h)

theorem KV.get_foldl_put (m : GoMap) (acc : GoMap) (k : GoString)
    (h : (GoMap.keys m).Nodup) :
    KV.get (m.foldl (fun acc kv => KV.put acc kv.1 kv.2) acc) k
      = match KV.get m k with
        | some v => some v
        | none => KV.get acc k := by
  induction m generalizing acc with
  | nil => rfl
  | cons x t ih =>
    obtain ⟨k0, v0⟩ := x
    unfold GoMap.keys at h
    rw [List.map_cons, List.nodup_cons] at h
    obtain ⟨h0, ht⟩ := h
    rw [List.foldl_cons, ih _ ht]
    by_cases hk : k0 = k
    · subst hk
      have hnone : KV.get t k0 = none := by
        cases hg : KV.get t k0 with
        | none => rfl
        | some v => exact absurd (List.mem_map_of_mem Prod.fst (KV.mem_of_get hg)) h0
      simp only [hnone, KV.get, if_true]
      exact KV.get_put_self _ _ _
    · simp only [KV.get, hk, if_false]
      rw [KV.get_put_ne _ _ _ _ (Ne.symm hk)]

theorem KV.nodup_keys_of_sorted {l : GoMap} (h : KV.Sorted l) : (GoMap.keys l).Nodup := by
  unfold GoMap.keys List.Nodup
  rw [List.pairwise_map]
  exact List.Pairwise.imp (fun hab => bytesLt_ne hab) h

theorem get_sortedEntries (m : GoMap) (k : GoString) (h : (GoMap.keys m).Nodup) :
    KV.get (sortedEntries m) k = KV.get m k := by
  unfold sortedEntries
  rw [KV.get_foldl_put m [] k h]
  cases KV.get m k <;> rfl

theorem sorted_sortedEntries (m : GoMap) : KV.Sorted (sortedEntries m) :=
  KV.sorted_foldl_put m (fun s => s) (fun s => s) [] List.Pairwise.nil

theorem mem_sortedEntries {m : GoMap} {e : GoString × GoString} (h : e ∈ sortedEntries m) :
    e ∈ m := by
  rcases KV.mem_foldl_put m [] e h with h | h
  · cases h
  · exact h

/-- A map with distinct keys whose keys and values are valid UTF-8 comes back from JSON as
the same mapping. -/
theorem get_coerceMap (m : GoMap) (k : GoString) (hnd : (GoMap.keys m).Nodup)
    (hv : ∀ kv ∈ m, validUTF8 kv.1 = true ∧ validUTF8 kv.2 = true) :
    KV.get (coerceMap m) k = KV.get m k := by
  have e : coerceMap m = sortedEntries (sortedEntries m) := by
    unfold coerceMap
    conv_rhs => unfold sortedEntries
    apply List.foldl_ext
    intro acc kv hkv
    obtain ⟨h1, h2⟩ := hv kv (mem_sortedEntries hkv)
    rw [toValidUTF8_of_valid _ h1, toValidUTF8_of_valid _ h2]
  rw [e, get_sortedEntries _ _ (KV.nodup_keys_of_sorted (sorted_sortedEntries m)),
    get_sortedEntries _ _ hnd]

/-! ## Lemmas: transactions -/

theorem txPut_ok {tx tx' : Store} {name key : GoString} {v : Value}
    (h : txPut tx name key v = .ok tx') :
    ∃ b, txBucket tx name = some b ∧ tx' = KV.put tx name (KV.put b key v) := by
  unfold txPut at h
  cases hb : txBucket tx name with
  | none => rw [hb] at h; cases h
  | some b =>
    rw [hb] at h
    refine ⟨b, rfl, ?_⟩
    simp only at h
    split at h
    · cases h
    · split at h
      · cases h
      · split at h
        · cases h
        · injection h with h
          exact h.symm

theorem txBucket_put_self (tx : Store) (name : GoString) (b : Bucket) :
    txBucket (KV.put tx name b) name = some b :=
  KV.get_put_self tx name b

theorem txBucket_put_ne (tx : Store) (name name0 : GoString) (b : Bucket) (h : name0 ≠ name) :
    txBucket (KV.put tx name b) name0 = txBucket tx name0 :=
  KV.get_put_ne tx name name0 b h

theorem Update_ok {α : Type} {db db' : Store} {fn : Store → Except Err (α × Store)} {a : α}
    (h : Update db fn = (.ok a, db')) : fn db = .ok (a, db') := by
  unfold Update at h
  cases hf : fn db with
  | error e => rw [hf] at h; simp at h
  | ok r =>
    rw [hf] at h
    obtain ⟨a', tx⟩ := r
    simp only [Prod.mk.injEq, Except.ok.injEq] at h
    rw [h.1, h.2]

theorem Update_error {α : Type} {db : Store} {fn : Store → Except Err (α × Store)} {e : Err}
    (h : fn db = .error e) : Update db fn = (.error e, db) := by
  unfold Update
  rw [h]

/-- After a successful `writeCI`, `GetCI` decodes the record that was written. -/
theorem writeCI_ok {db db' : Store} {ci : ConfigurationItem} {u : Unit}
    (h : writeCI db ci = (.ok u, db')) : GetCI db' ci.ID = unmarshalCI (some (.ci ci)) := by
  unfold writeCI at h
  replace h := Update_ok h
  dsimp only at h
  cases h1 : txBucket db (str "cis") with
  | none => rw [h1] at h; simp at h
  | some b1 =>
    cases h2 : txBucket db (str "cisbytype") with
    | none => rw [h1, h2] at h; simp at h
    | some b2 =>
      rw [h1, h2] at h
      simp only [bind, Except.bind, pure, Except.pure] at h
      cases h3 : txPut db (str "cisbytype") (ci.Type_.ID ++ str ":" ++ ci.ID) (.raw []) with
      | error e => rw [h3] at h; simp at h
      | ok tx1 =>
        rw [h3] at h
        simp only at h
        cases h4 : txPut tx1 (str "cis") ci.ID (.ci ci) with
        | error e => rw [h4] at h; simp at h
        | ok tx2 =>
          rw [h4] at h
          simp only [Except.ok.injEq, Prod.mk.injEq] at h
          obtain ⟨b, _, hb⟩ := txPut_ok h4
          have hdb : db' = tx2 := h.2.symm
          rw [hdb, hb]
          unfold GetCI
          rw [txBucket_put_self]
          simp only [KV.get_put_self]

theorem AddCI_ok {U : GoString → GoString} {s1 s2 s3 : Nat} {newID : GoString}
    {db db' : Store} {data : GoMap} {c : ConfigurationItem}
    (h : AddCI U s1 s2 s3 newID db data = (.ok c, db')) :
    c.ID = newID ∧ c.Version = 0 ∧ c.Data = data
      ∧ c.Type_.ID = hashData s3 (normalizeData U s1 s2 data)
      ∧ GetCI db' c.ID = unmarshalCI (some (.ci c)) := by
  unfold AddCI at h
  simp only at h
  cases h1 : createOrGetCIType db (hashData s3 (normalizeData U s1 s2 data)) with
  | mk r1 db1 =>
    rw [h1] at h
    cases r1 with
    | error e => simp at h
    | ok cit =>
      simp only at h
      cases h2 : writeCI db1
          { ID := newID, Version := 0, Data := data, Type_ := cit } with
      | mk r2 db2 =>
        rw [h2] at h
        cases r2 with
        | error e => simp at h
        | ok u =>
          simp only [Prod.mk.injEq, Except.ok.injEq] at h
          obtain ⟨hc, hdb⟩ := h
          subst hc hdb
          refine ⟨rfl, rfl, rfl, ?_, writeCI_ok h2⟩
          unfold createOrGetCIType at h1
          replace h1 := Update_ok h1
          cases h3 : txBucket db (str "citypes") with
          | none => rw [h3] at h1; simp at h1
          | some b =>
            rw [h3] at h1
            simp only at h1
            cases h4 : KV.get b (hashData s3 (normalizeData U s1 s2 data)) with
            | none =>
              rw [h4] at h1
              simp only [bind, Except.bind, pure, Except.pure] at h1
              cases h5 : txPut db (str "citypes") (hashData s3 (normalizeData U s1 s2 data))
                  (.raw []) with
              | error e => rw [h5] at h1; simp at h1
              | ok tx1 =>
                rw [h5] at h1
                simp only [Prod.mk.injEq, Except.ok.injEq] at h1
                rw [← h1.1]
            | some v =>
              rw [h4] at h1
              simp only [Prod.mk.injEq, Except.ok.injEq] at h1
              rw [← h1.1]

/-! ## Lemmas: the relationship lookups -/

/-- Without a bucket `rels` no relationship bucket is ever found. -/
theorem getRelationshipBucket_of_no_rels (db : Store) (relID : GoString)
    (h : txBucket db (str "rels") = none) :
    getRelationshipBucket db relID = .error .ErrKeyNotFound := by
  unfold getRelationshipBucket
  rw [h]
  rfl

theorem GetRelationship_of_no_rels (db : Store) (id : GoString)
    (h : txBucket db (str "rels") = none) : GetRelationship db id = .error .ErrKeyNotFound := by
  unfold GetRelationship
  rw [getRelationshipBucket_of_no_rels db id h]

theorem DeleteRelationship_of_no_rels (db : Store) (id : GoString)
    (h : txBucket db (str "rels") = none) :
    DeleteRelationship db id = (.error .ErrKeyNotFound, db) := by
  unfold DeleteRelationship
  apply Update_error
  rw [getRelationshipBucket_of_no_rels db id h]

theorem hasPrefix_nil_left (pre : GoString) (h : pre ≠ []) : hasPrefix [] pre = false := by
  cases pre with
  | nil => exact absurd rfl h
  | cons b t => rfl

/-- One loop of `GetRelationshipsByCI` appends at most one edge. -/
theorem GetRelationshipsByCI.loop_length (b : Bucket) (pre : GoString) (hpre : pre ≠ [])
    (fuel : Nat) (kv : Option (GoString × Value)) (rels out : List Relationship)
    (h : GetRelationshipsByCI.loop b pre fuel kv rels = .ok out) :
    out.length ≤ rels.length + 1 := by
  cases fuel with
  | zero =>
    simp only [GetRelationshipsByCI.loop, Except.ok.injEq] at h
    rw [← h]
    exact Nat.le_succ _
  | succ fuel =>
    simp only [GetRelationshipsByCI.loop] at h
    split at h
    · cases hu : unmarshalRel (Option.map Prod.snd kv) with
      | error e => rw [hu] at h; cases h
      | ok rel =>
        rw [hu] at h
        simp only at h
        have hn : (newCursor b).Next.1 = none := rfl
        rw [hn] at h
        cases fuel with
        | zero =>
          simp only [GetRelationshipsByCI.loop, Except.ok.injEq] at h
          rw [← h]
          simp
        | succ fuel =>
          simp only [GetRelationshipsByCI.loop, Option.map_none', Option.getD_none,
            hasPrefix_nil_left pre hpre] at h
          simp only [Bool.false_eq_true, if_false, Except.ok.injEq] at h
          rw [← h]
          simp
    · simp only [Except.ok.injEq] at h
      rw [← h]
      exact Nat.le_succ _

/-- In every store `GetRelationshipsByCI` returns at most two edges: one outgoing and one
incoming. -/
theorem GetRelationshipsByCI_length_le_two (db : Store) (id : GoString)
    (out : List Relationship) (h : GetRelationshipsByCI db id = .ok out) : out.length ≤ 2 := by
  have hpre : id ++ str ":" ≠ [] := by
    intro e
    have hc : str ":" = [58] := by decide
    rw [hc] at e
    exact List.cons_ne_nil _ _ (List.append_eq_nil.1 e).2
  unfold GetRelationshipsByCI at h
  cases h1 : txBucket db (str "relsoutgoing") with
  | none => rw [h1] at h; cases h
  | some ob =>
    cases h2 : txBucket db (str "relsincoming") with
    | none => rw [h1, h2] at h; cases h
    | some ib =>
      rw [h1, h2] at h
      simp only at h
      cases h3 : GetRelationshipsByCI.loop ob (id ++ str ":") (ob.length + 1)
          ((newCursor ob).Seek (id ++ str ":")).1 [] with
      | error e => rw [h3] at h; cases h
      | ok rels =>
        rw [h3] at h
        simp only at h
        have l1 := GetRelationshipsByCI.loop_length ob _ hpre _ _ _ _ h3
        have l2 := GetRelationshipsByCI.loop_length ib _ hpre _ _ _ _ h
        simp only [List.length_nil] at l1
        omega

/-! ## The claims -/

theorem NewDB_nil : NewDB [] = .ok freshDB := by decide

set_option maxRecDepth 100000 in
/-- C1 (fails on the code).  `web01` and `web02` have the same keys and different values.
`normalizeData` returns a Go map, so the sorted order is lost, and `hashData` concatenates the
keys in the order its `range` statement visits them: visited as `hostname`, `ip` (seed `0`)
the type id is the digest of `"hostnameip"`, visited as `ip`, `hostname` (seed `1`) it is the
digest of `"iphostname"`, and `AddCI` returns two different type ids. -/
theorem C1_same_keys_different_type_id (U : GoString → GoString) :
    GoMap.keys web01 = GoMap.keys web02
    ∧ hashData 0 (normalizeData U 0 0 web01) = md5Sum (str "hostnameip")
    ∧ hashData 1 (normalizeData U 0 0 web02) = md5Sum (str "iphostname")
    ∧ typeIdOf (AddCI U 0 0 0 ulid1 freshDB web01).1 = .ok (md5Sum (str "hostnameip"))
    ∧ typeIdOf (AddCI U 0 0 1 ulid2 (AddCI U 0 0 0 ulid1 freshDB web01).2 web02).1
        = .ok (md5Sum (str "iphostname"))
    ∧ md5Sum (str "hostnameip") ≠ md5Sum (str "iphostname") := by
  rw [normalizeData_congr U (fun s => s) 0 0 web01 (by decide),
    normalizeData_congr U (fun s => s) 0 0 web02 (by decide),
    AddCI_congr U (fun s => s) 0 0 1 ulid2 _ web02 (by decide),
    AddCI_congr U (fun s => s) 0 0 0 ulid1 freshDB web01 (by decide)]
  decide

set_option maxRecDepth 100000 in
/-- C2 (fails on the code).  With the keys of the normalized map visited as `ip`, `hostname`
(seed `1` in `hashData`), `AddCI` on `web01` returns the digest of `"iphostname"` as type id,
which is not the digest of the sorted concatenation `"hostnameip"`. -/
theorem C2_type_id_not_digest_of_sorted_keys (U : GoString → GoString) :
    typeIdOf (AddCI U 0 0 1 ulid1 freshDB web01).1 = .ok (md5Sum (str "iphostname"))
    ∧ deriveTypeIdSpec U web01 = md5Sum (str "hostnameip")
    ∧ md5Sum (str "iphostname") ≠ md5Sum (str "hostnameip") := by
  have e : deriveTypeIdSpec U web01 = deriveTypeIdSpec (fun s => s) web01 := by
    unfold deriveTypeIdSpec
    have : (GoMap.keys web01).map (ToLower U) = (GoMap.keys web01).map (ToLower (fun s => s)) := by
      apply List.map_congr_left
      intro k hk
      rw [ToLower_ascii U k (by revert k hk; decide),
        ToLower_ascii (fun s => s) k (by revert k hk; decide)]
    rw [this]
  rw [e, AddCI_congr U (fun s => s) 0 0 1 ulid1 freshDB web01 (by decide)]
  decide

set_option maxRecDepth 100000 in
/-- C3 as stated fails: the value `"\xff"` of the label `note` is not UTF-8 and comes back
from the store as the replacement rune, so the data read back is not the data added. -/
theorem C3_counterexample :
    ¬ (∀ (U : GoString → GoString) (s1 s2 s3 : Nat) (newID : GoString) (db db' : Store)
        (data : GoMap) (c : ConfigurationItem),
        (GoMap.keys data).Nodup →
        AddCI U s1 s2 s3 newID db data = (.ok c, db') →
        ∃ c', GetCI db' c.ID = .ok c' ∧ c'.Version = 0
          ∧ ∀ k, KV.get c'.Data k = KV.get data k) := by
  intro H
  obtain ⟨c', h1, _, h3⟩ := H (fun s => s) 0 0 0 ulid1 freshDB
    (AddCI (fun s => s) 0 0 0 ulid1 freshDB noteFF).2 noteFF
    { ID := ulid1, Version := 0, Data := noteFF,
      Type_ := { ID := md5Sum (str "note"), Name := [] } }
    (by decide) (by decide)
  have h2 : GetCI (AddCI (fun s => s) 0 0 0 ulid1 freshDB noteFF).2 ulid1
      = .ok { ID := ulid1, Version := 0, Data := [(str "note", replacementRune)],
              Type_ := { ID := toValidUTF8 (md5Sum (str "note")), Name := [] } } := by
    decide
  rw [h2] at h1
  injection h1 with h1
  have h4 := h3 (str "note")
  rw [← h1] at h4
  revert h4
  decide

/-- C3, amended: for a label map with distinct keys whose keys and values are valid UTF-8, a
configuration item that `AddCI` returns is found by `GetCI` under its id, with version `0` and
with the same data as a mapping (same keys, in their original casing, same values). -/
theorem C3_round_trip_of_valid_utf8 (U : GoString → GoString) (s1 s2 s3 : Nat)
    (newID : GoString) (db db' : Store) (data : GoMap) (c : ConfigurationItem)
    (hkeys : (GoMap.keys data).Nodup)
    (hvalid : ∀ kv ∈ data, validUTF8 kv.1 = true ∧ validUTF8 kv.2 = true)
    (h : AddCI U s1 s2 s3 newID db data = (.ok c, db')) :
    ∃ c', GetCI db' c.ID = .ok c' ∧ c'.Version = 0
      ∧ ∀ k, KV.get c'.Data k = KV.get data k := by
  obtain ⟨_, hver, hdata, _, hget⟩ := AddCI_ok h
  refine ⟨_, hget, hver, ?_⟩
  intro k
  show KV.get (coerceMap c.Data) k = KV.get data k
  rw [hdata]
  exact get_coerceMap data k hkeys hvalid

set_option maxRecDepth 100000 in
/-- C3, amended, at the labels of `example/main.go` added to a new store. -/
theorem C3_round_trip_of_valid_utf8_witness :
    (GoMap.keys web01).Nodup
    ∧ (∀ kv ∈ web01, validUTF8 kv.1 = true ∧ validUTF8 kv.2 = true)
    ∧ ∃ c', GetCI (AddCI (fun s => s) 0 0 0 ulid1 freshDB web01).2 ulid1 = .ok c'
        ∧ c'.Version = 0 ∧ ∀ k, KV.get c'.Data k = KV.get web01 k :=
  ⟨by decide, by decide,
    C3_round_trip_of_valid_utf8 (fun s => s) 0 0 0 ulid1 freshDB
      (AddCI (fun s => s) 0 0 0 ulid1 freshDB web01).2 web01
      { ID := ulid1, Version := 0, Data := web01,
        Type_ := { ID := md5Sum (str "hostnameip"), Name := [] } }
      (by decide) (by decide) (by decide)⟩

set_option maxRecDepth 100000 in
/-- C4 (fails on the code).  `AddCI` on `hostA` returns the raw digest of `"hostname"` as type
id and keys `citypes` and `cisbytype` with it.  The digest is not UTF-8 (its second byte is
`0x97`), `json.Marshal` replaces its invalid bytes, and `GetCI` returns another type id. -/
theorem C4_type_id_changed_by_json (U : GoString → GoString) :
    hashData 0 (normalizeData U 0 0 hostA) = md5Sum (str "hostname")
    ∧ typeIdOf (AddCI U 0 0 0 ulid1 freshDB hostA).1 = .ok (md5Sum (str "hostname"))
    ∧ typeIdOf (GetCI (AddCI U 0 0 0 ulid1 freshDB hostA).2 ulid1)
        = .ok (toValidUTF8 (md5Sum (str "hostname")))
    ∧ toValidUTF8 (md5Sum (str "hostname")) ≠ md5Sum (str "hostname") := by
  rw [normalizeData_congr U (fun s => s) 0 0 hostA (by decide),
    AddCI_congr U (fun s => s) 0 0 0 ulid1 freshDB hostA (by decide)]
  decide

set_option maxRecDepth 100000 in
/-- C5 (fails on the code).  After `AddCI` on `hostA` and on `hostB` both items are stored
with the type id `md5("hostname")`, and `GetCIsByType` of that id returns `ErrKeyNotFound`: it
hands each whole `cisbytype` key `"<typeId>:<ciId>"` to `GetCI`, and `cis` has no such key.
Called with the type id as `GetCI` reports it, it finds no key and returns the empty list. -/
theorem C5_GetCIsByType_key_not_found (U : GoString → GoString) :
    typeIdOf (AddCI U 0 0 0 ulid1 freshDB hostA).1 = .ok (md5Sum (str "hostname"))
    ∧ typeIdOf (AddCI U 0 0 0 ulid2 (AddCI U 0 0 0 ulid1 freshDB hostA).2 hostB).1
        = .ok (md5Sum (str "hostname"))
    ∧ GetCIsByType (AddCI U 0 0 0 ulid2 (AddCI U 0 0 0 ulid1 freshDB hostA).2 hostB).2
        (md5Sum (str "hostname")) = .error .ErrKeyNotFound
    ∧ GetCIsByType (AddCI U 0 0 0 ulid2 (AddCI U 0 0 0 ulid1 freshDB hostA).2 hostB).2
        (toValidUTF8 (md5Sum (str "hostname"))) = .ok [] := by
  rw [AddCI_congr U (fun s => s) 0 0 0 ulid2 _ hostB (by decide),
    AddCI_congr U (fun s => s) 0 0 0 ulid1 freshDB hostA (by decide)]
  decide

/-- C6.  For a reserved bucket name `r`, `AddRelationship` returns `ErrReservedBucketName`
and no edge, and leaves the store as it was, whatever the store and the other arguments. -/
theorem C6_reserved_name_rejected (U : GoString → GoString) (db : Store)
    (from_ to_ r : GoString) (data : GoMap) (h : r ∈ RESERVED_BUCKET_NAMES) :
    AddRelationship U db from_ to_ r data = (.error .ErrReservedBucketName, db) := by
  have hg : guardName r = .error .ErrReservedBucketName := by
    unfold guardName
    rw [if_pos]
    rw [List.any_eq_true]
    exact ⟨r, h, by simp⟩
  unfold AddRelationship
  rw [hg]

/-- C6 at the name `cis`, on a new store. -/
theorem C6_reserved_name_rejected_witness :
    str "cis" ∈ RESERVED_BUCKET_NAMES
    ∧ AddRelationship (fun s => s) freshDB ulid1 ulid2 (str "cis") masterWeb02
        = (.error .ErrReservedBucketName, freshDB) :=
  ⟨by decide,
    C6_reserved_name_rejected (fun s => s) freshDB ulid1 ulid2 (str "cis") masterWeb02
      (by decide)⟩

set_option maxRecDepth 100000 in
/-- C7 (fails on the code).  `guardName` compares the name as given, before it is lowered:
`"CIS"` passes the guard, is lowered to the reserved name `"cis"`, and `AddRelationship`
succeeds, registers `cis` in `reltypes` and writes the edge record into the bucket `cis`. -/
theorem C7_reserved_name_after_lowering (U : GoString → GoString) :
    (AddRelationship U freshDB ulid1 ulid2 (str "CIS") []).1 = .ok edgeCIS
    ∧ edgeCIS.Relationship ∈ RESERVED_BUCKET_NAMES
    ∧ stored (AddRelationship U freshDB ulid1 ulid2 (str "CIS") []).2 (str "reltypes")
        (str "cis") = some (.raw [])
    ∧ stored (AddRelationship U freshDB ulid1 ulid2 (str "CIS") []).2 (str "cis")
        edgeCIS.ID = some (.rel edgeCIS) := by
  rw [AddRelationship_congr U (fun s => s) freshDB ulid1 ulid2 (str "CIS") [] (by decide)]
  decide

set_option maxRecDepth 100000 in
/-- C8 (fails on the code).  After `AddRelationship` on a new store the edge is recorded in
`reltypeindex` and in its type bucket, and `GetRelationship` of its id returns
`ErrKeyNotFound`: `getRelationshipBucket` reads the key `"index:<id>"` of a bucket `rels`,
which nothing creates, and not `reltypeindex[id]`. -/
theorem C8_GetRelationship_not_found (U : GoString → GoString) :
    (AddRelationship U freshDB ulid1 ulid2 (str "connected-to") masterWeb02).1 = .ok edge12
    ∧ stored (AddRelationship U freshDB ulid1 ulid2 (str "connected-to") masterWeb02).2
        (str "reltypeindex") edge12.ID = some (.raw (str "connected-to"))
    ∧ stored (AddRelationship U freshDB ulid1 ulid2 (str "connected-to") masterWeb02).2
        (str "connected-to") edge12.ID = some (.rel edge12)
    ∧ GetRelationship (AddRelationship U freshDB ulid1 ulid2 (str "connected-to") masterWeb02).2
        edge12.ID = .error .ErrKeyNotFound := by
  rw [AddRelationship_congr U (fun s => s) freshDB ulid1 ulid2 (str "connected-to") masterWeb02
    (by decide)]
  decide

set_option maxRecDepth 100000 in
/-- C9 (fails on the code).  With the two outgoing edges `ulid1 → ulid2` and `ulid1 → ulid3`
stored in `relsoutgoing`, `GetRelationshipsByCI ulid1` returns the first one only: the post
statement of the loop calls `Next` on a new cursor, which returns the nil key, and the loop
ends after one element. -/
theorem C9_only_first_edge_returned (U : GoString → GoString) :
    bucketKeys (AddRelationship U
        (AddRelationship U freshDB ulid1 ulid2 (str "connected-to") masterWeb02).2
        ulid1 ulid3 (str "connected-to") []).2 (str "relsoutgoing")
      = some [edge12.ID, edge13.ID]
    ∧ GetRelationshipsByCI (AddRelationship U
        (AddRelationship U freshDB ulid1 ulid2 (str "connected-to") masterWeb02).2
        ulid1 ulid3 (str "connected-to") []).2 ulid1
      = .ok [edge12] := by
  rw [AddRelationship_congr U (fun s => s) _ ulid1 ulid3 (str "connected-to") [] (by decide),
    AddRelationship_congr U (fun s => s) freshDB ulid1 ulid2 (str "connected-to") masterWeb02
      (by decide)]
  decide

set_option maxRecDepth 100000 in
/-- C10 (fails on the code).  `DeleteRelationship` of an edge just added returns
`ErrKeyNotFound` (from `getRelationshipBucket`, see C8) and the transaction is rolled back:
the entries in `reltypeindex`, `relsincoming`, `relsoutgoing` and the type bucket stay. -/
theorem C10_DeleteRelationship_not_found (U : GoString → GoString) :
    DeleteRelationship (AddRelationship U freshDB ulid1 ulid2 (str "connected-to") masterWeb02).2
        edge12.ID
      = (.error .ErrKeyNotFound,
          (AddRelationship U freshDB ulid1 ulid2 (str "connected-to") masterWeb02).2)
    ∧ stored (AddRelationship U freshDB ulid1 ulid2 (str "connected-to") masterWeb02).2
        (str "reltypeindex") edge12.ID = some (.raw (str "connected-to"))
    ∧ stored (AddRelationship U freshDB ulid1 ulid2 (str "connected-to") masterWeb02).2
        (str "relsincoming") (ulid2 ++ str ":" ++ ulid1) = some (.rel edge12)
    ∧ stored (AddRelationship U freshDB ulid1 ulid2 (str "connected-to") masterWeb02).2
        (str "relsoutgoing") (ulid1 ++ str ":" ++ ulid2) = some (.rel edge12)
    ∧ stored (AddRelationship U freshDB ulid1 ulid2 (str "connected-to") masterWeb02).2
        (str "connected-to") edge12.ID = some (.rel edge12) := by
  rw [AddRelationship_congr U (fun s => s) freshDB ulid1 ulid2 (str "connected-to") masterWeb02
    (by decide)]
  decide

/-! ## Lemmas: the scenarios do not depend on the Unicode tables -/

theorem UpdateCI_congr (U V : GoString → GoString) (s1 s2 s3 : Nat) (db : Store)
    (id : GoString) (data : GoMap) (h : ∀ kv ∈ data, isASCII kv.1 = true) :
    UpdateCI U s1 s2 s3 db id data = UpdateCI V s1 s2 s3 db id data := by
  unfold UpdateCI
  rw [normalizeData_congr U V s1 s2 data h]

theorem UpdateRelationship_of_no_rels (U : GoString → GoString) (db : Store) (id : GoString)
    (data : GoMap) (h : txBucket db (str "rels") = none) :
    UpdateRelationship U db id data = (.error .ErrKeyNotFound, db) := by
  unfold UpdateRelationship
  rw [GetRelationship_of_no_rels db id h]

theorem AddRelationship_connected_to (U : GoString → GoString) (db : Store)
    (from_ to_ : GoString) (data : GoMap) :
    AddRelationship U db from_ to_ (str "connected-to") data
      = AddRelationship (fun s => s) db from_ to_ (str "connected-to") data :=
  AddRelationship_congr U (fun s => s) db from_ to_ (str "connected-to") data (by decide)

theorem addHostA_congr (U : GoString → GoString) : addHostA U = addHostA (fun s => s) :=
  AddCI_congr U (fun s => s) 0 0 0 ulid1 freshDB hostA (by decide)

theorem addEdge12_congr (U : GoString → GoString) : addEdge12 U = addEdge12 (fun s => s) := by
  unfold addEdge12
  rw [addHostA_congr U, AddRelationship_connected_to U]

theorem addEdge13_congr (U : GoString → GoString) : addEdge13 U = addEdge13 (fun s => s) := by
  unfold addEdge13
  rw [addEdge12_congr U, AddRelationship_connected_to U]

theorem addEdge41_congr (U : GoString → GoString) : addEdge41 U = addEdge41 (fun s => s) := by
  unfold addEdge41
  rw [addEdge13_congr U, AddRelationship_connected_to U]

theorem addUses_congr (U : GoString → GoString) : addUses U = addUses (fun s => s) :=
  AddRelationship_congr U (fun s => s) freshDB ulid1 ulid2 (str "uses") [] (by decide)

theorem addOwns_congr (U : GoString → GoString) : addOwns U = addOwns (fun s => s) := by
  unfold addOwns
  rw [addUses_congr U,
    AddRelationship_congr U (fun s => s) _ ulid1 ulid2 (str "owns") [] (by decide)]

theorem updateHostA_congr (U : GoString → GoString) :
    updateHostA U = updateHostA (fun s => s) := by
  unfold updateHostA
  rw [addHostA_congr U, UpdateCI_congr U (fun s => s) 0 0 0 _ ulid1 ipLabels (by decide)]

theorem addWeb01_congr (U : GoString → GoString) : addWeb01 U = addWeb01 (fun s => s) :=
  AddCI_congr U (fun s => s) 0 0 0 ulid1 freshDB web01 (by decide)

theorem renameWeb01_congr (U : GoString → GoString) :
    renameWeb01 U = renameWeb01 (fun s => s) := by
  unfold renameWeb01
  rw [addWeb01_congr U]

theorem addWeb02_congr (U : GoString → GoString) : addWeb02 U = addWeb02 (fun s => s) := by
  unfold addWeb02
  rw [renameWeb01_congr U, AddCI_congr U (fun s => s) 0 0 1 ulid2 _ web02 (by decide)]

theorem addWeb02Sorted_congr (U : GoString → GoString) :
    addWeb02Sorted U = addWeb02Sorted (fun s => s) := by
  unfold addWeb02Sorted
  rw [renameWeb01_congr U, AddCI_congr U (fun s => s) 0 0 0 ulid2 _ web02 (by decide)]

theorem deriveTypeIdSpec_congr (U V : GoString → GoString) (data : GoMap)
    (h : ∀ k ∈ GoMap.keys data, isASCII k = true) :
    deriveTypeIdSpec U data = deriveTypeIdSpec V data := by
  unfold deriveTypeIdSpec
  have : (GoMap.keys data).map (ToLower U) = (GoMap.keys data).map (ToLower V) := by
    apply List.map_congr_left
    intro k hk
    rw [ToLower_ascii U k (h k hk), ToLower_ascii V k (h k hk)]
  rw [this]

/-! ## Lemmas: writing a configuration item -/

theorem leBytes_length (n x : Nat) : (leBytes n x).length = n := by
  induction n generalizing x with
  | zero => rfl
  | succ n ih => simp [leBytes, ih]

theorem md5Sum_length (msg : GoString) : (md5Sum msg).length = 16 := by
  unfold md5Sum
  simp only [List.length_append, leBytes_length]

theorem hashData_length (s : Nat) (data : GoMap) : (hashData s data).length = 16 :=
  md5Sum_length _

theorem txPut_eq_ok {tx : Store} {name key : GoString} (v : Value) {b : Bucket}
    (hb : txBucket tx name = some b) (h0 : key.length ≠ 0) (h1 : key.length ≤ MaxKeySize)
    (h2 : v.bytes.length ≤ MaxValueSize) :
    txPut tx name key v = .ok (KV.put tx name (KV.put b key v)) := by
  unfold txPut
  rw [hb]
  simp only
  rw [if_neg h0, if_neg (Nat.not_lt.2 h1), if_neg (Nat.not_lt.2 h2)]

theorem stored_put_self (tx : Store) (name key : GoString) (b : Bucket) :
    stored (KV.put tx name b) name key = KV.get b key := by
  unfold stored
  rw [txBucket_put_self]
  rfl

theorem stored_put_ne (tx : Store) (name name0 key : GoString) (b : Bucket) (h : name0 ≠ name) :
    stored (KV.put tx name b) name0 key = stored tx name0 key := by
  unfold stored
  rw [txBucket_put_ne tx name name0 b h]

/-- `writeCI` succeeds on a store with the buckets `cis` and `cisbytype` when the keys and the
record fit the limits of bbolt. -/
theorem writeCI_eq_ok {db : Store} {ci : ConfigurationItem} {b1 b2 : Bucket}
    (h1 : txBucket db (str "cis") = some b1) (h2 : txBucket db (str "cisbytype") = some b2)
    (hid0 : ci.ID.length ≠ 0) (hid : ci.ID.length ≤ MaxKeySize)
    (hkey : (ci.Type_.ID ++ str ":" ++ ci.ID).length ≤ MaxKeySize)
    (hfit : (marshalCI ci).length ≤ MaxValueSize) :
    writeCI db ci = (.ok (),
      KV.put (KV.put db (str "cisbytype") (KV.put b2 (ci.Type_.ID ++ str ":" ++ ci.ID) (.raw [])))
        (str "cis") (KV.put b1 ci.ID (.ci ci))) := by
  have hk0 : (ci.Type_.ID ++ str ":" ++ ci.ID).length ≠ 0 := by
    rw [List.length_append]
    omega
  have e1 := txPut_eq_ok (Value.raw []) h2 hk0 hkey (by decide)
  have h1' : txBucket (KV.put db (str "cisbytype")
      (KV.put b2 (ci.Type_.ID ++ str ":" ++ ci.ID) (.raw []))) (str "cis") = some b1 := by
    rw [txBucket_put_ne _ _ _ _ (by decide)]
    exact h1
  have e2 := txPut_eq_ok (Value.ci ci) h1' hid0 hid hfit
  unfold writeCI Update
  simp only [h1, h2, bind, Except.bind, e1, e2, pure, Except.pure]


theorem createOrGetCIType_of_some {db : Store} {hash : GoString} {v : Value}
    (h : stored db (str "citypes") hash = some v) :
    createOrGetCIType db hash = (.ok { ID := hash, Name := v.bytes }, db) := by
  unfold stored at h
  cases hb : txBucket db (str "citypes") with
  | none => rw [hb] at h; cases h
  | some b =>
    rw [hb] at h
    have hg : KV.get b hash = some v := h
    unfold createOrGetCIType Update
    simp only [hb, hg]

theorem createOrGetCIType_of_none {db : Store} {hash : GoString} {b : Bucket}
    (hb : txBucket db (str "citypes") = some b) (h : KV.get b hash = none)
    (h0 : hash.length ≠ 0) (h1 : hash.length ≤ MaxKeySize) :
    createOrGetCIType db hash
      = (.ok { ID := hash, Name := [] },
          KV.put db (str "citypes") (KV.put b hash (.raw []))) := by
  have e := txPut_eq_ok (Value.raw []) hb h0 h1 (by decide)
  unfold createOrGetCIType Update
  simp only [hb, h, bind, Except.bind, e, pure, Except.pure]

/-- `UpdateCITypeName` that succeeds leaves the name under the type id. -/
theorem UpdateCITypeName_ok {db db1 : Store} {t n : GoString} {u : Unit}
    (h : UpdateCITypeName db t n = (.ok u, db1)) :
    stored db1 (str "citypes") t = some (.raw n) := by
  unfold UpdateCITypeName at h
  replace h := Update_ok h
  cases hb : txBucket db (str "citypes") with
  | none => rw [hb] at h; cases h
  | some b =>
    rw [hb] at h
    simp only [bind, Except.bind, pure, Except.pure] at h
    cases hp : txPut db (str "citypes") t (.raw n) with
    | error e => rw [hp] at h; cases h
    | ok tx =>
      rw [hp] at h
      simp only [Except.ok.injEq, Prod.mk.injEq] at h
      obtain ⟨b', _, hb'⟩ := txPut_ok hp
      rw [← h.2, hb', stored_put_self, KV.get_put_self]


/-- `AddCI` with the type already in `citypes`: the stored name is kept. -/
theorem AddCI_of_known_type (U : GoString → GoString) (s1 s2 s3 : Nat) (newID : GoString)
    (db : Store) (data : GoMap) (v : Value) (b1 b2 : Bucket)
    (h1 : txBucket db (str "cis") = some b1) (h2 : txBucket db (str "cisbytype") = some b2)
    (hid : newID.length = 26)
    (ht : stored db (str "citypes") (hashData s3 (normalizeData U s1 s2 data)) = some v)
    (hfit : (marshalCI ⟨newID, 0, data,
        ⟨hashData s3 (normalizeData U s1 s2 data), v.bytes⟩⟩).length ≤ MaxValueSize) :
    ∃ db2, AddCI U s1 s2 s3 newID db data
        = (.ok ⟨newID, 0, data, ⟨hashData s3 (normalizeData U s1 s2 data), v.bytes⟩⟩, db2)
      ∧ stored db2 (str "citypes") (hashData s3 (normalizeData U s1 s2 data)) = some v := by
  have hlen := hashData_length s3 (normalizeData U s1 s2 data)
  have hc : (str ":").length = 1 := by decide
  have hw := @writeCI_eq_ok db
      ⟨newID, 0, data, ⟨hashData s3 (normalizeData U s1 s2 data), v.bytes⟩⟩ b1 b2
      h1 h2 (by show newID.length ≠ 0; omega)
      (by show newID.length ≤ MaxKeySize; unfold MaxKeySize; omega)
      (by
        show (hashData s3 (normalizeData U s1 s2 data) ++ str ":" ++ newID).length ≤ MaxKeySize
        rw [List.length_append, List.length_append, hlen, hid, hc]
        decide) hfit
  refine ⟨(writeCI db
    ⟨newID, 0, data, ⟨hashData s3 (normalizeData U s1 s2 data), v.bytes⟩⟩).2, ?_, ?_⟩
  · unfold AddCI
    simp only [createOrGetCIType_of_some ht, hw]
  · rw [hw]
    show stored (KV.put (KV.put db _ _) _ _) _ _ = _
    rw [stored_put_ne _ _ _ _ _ (by decide), stored_put_ne _ _ _ _ _ (by decide)]
    exact ht


/-- `AddCI` with a type that `citypes` does not hold yet: the type is registered with the
empty name. -/
theorem AddCI_of_new_type (U : GoString → GoString) (s1 s2 s3 : Nat) (newID : GoString)
    (db : Store) (data : GoMap) (b b1 b2 : Bucket)
    (h1 : txBucket db (str "cis") = some b1) (h2 : txBucket db (str "cisbytype") = some b2)
    (hb : txBucket db (str "citypes") = some b)
    (hid : newID.length = 26)
    (ht : KV.get b (hashData s3 (normalizeData U s1 s2 data)) = none)
    (hfit : (marshalCI ⟨newID, 0, data,
        ⟨hashData s3 (normalizeData U s1 s2 data), []⟩⟩).length ≤ MaxValueSize) :
    ∃ db2, AddCI U s1 s2 s3 newID db data
        = (.ok ⟨newID, 0, data, ⟨hashData s3 (normalizeData U s1 s2 data), []⟩⟩, db2)
      ∧ stored db2 (str "citypes") (hashData s3 (normalizeData U s1 s2 data))
          = some (.raw []) := by
  have hlen := hashData_length s3 (normalizeData U s1 s2 data)
  have hc : (str ":").length = 1 := by decide
  have hcr := createOrGetCIType_of_none hb ht (by rw [hlen]; decide) (by rw [hlen]; decide)
  have h1' : txBucket (KV.put db (str "citypes")
      (KV.put b (hashData s3 (normalizeData U s1 s2 data)) (.raw []))) (str "cis") = some b1 := by
    rw [txBucket_put_ne _ _ _ _ (by decide)]
    exact h1
  have h2' : txBucket (KV.put db (str "citypes")
      (KV.put b (hashData s3 (normalizeData U s1 s2 data)) (.raw []))) (str "cisbytype")
        = some b2 := by
    rw [txBucket_put_ne _ _ _ _ (by decide)]
    exact h2
  have hw := @writeCI_eq_ok _
      ⟨newID, 0, data, ⟨hashData s3 (normalizeData U s1 s2 data), []⟩⟩ b1 b2
      h1' h2' (by show newID.length ≠ 0; omega)
      (by show newID.length ≤ MaxKeySize; unfold MaxKeySize; omega)
      (by
        show (hashData s3 (normalizeData U s1 s2 data) ++ str ":" ++ newID).length ≤ MaxKeySize
        rw [List.length_append, List.length_append, hlen, hid, hc]
        decide) hfit
  refine ⟨(writeCI (KV.put db (str "citypes")
      (KV.put b (hashData s3 (normalizeData U s1 s2 data)) (.raw [])))
    ⟨newID, 0, data, ⟨hashData s3 (normalizeData U s1 s2 data), []⟩⟩).2, ?_, ?_⟩
  · unfold AddCI
    simp only [hcr, hw]
  · rw [hw]
    show stored (KV.put (KV.put (KV.put db _ _) _ _) _ _) _ _ = _
    rw [stored_put_ne _ _ _ _ _ (by decide), stored_put_ne _ _ _ _ _ (by decide),
      stored_put_self, KV.get_put_self]

theorem exists_of_isSome {α : Type} {o : Option α} (h : o.isSome = true) : ∃ a, o = some a := by
  cases o with
  | none => cases h
  | some a => exact ⟨a, rfl⟩

/-! ## Lemmas: writing a relationship -/

theorem stored_of_txBucket_eq {a b : Store} {name : GoString} (key : GoString)
    (h : txBucket a name = txBucket b name) : stored a name key = stored b name key := by
  unfold stored
  rw [h]

theorem length_ne_zero_of_ne_nil {s : GoString} (h : s ≠ []) : s.length ≠ 0 :=
  fun e => h (List.length_eq_zero.1 e)

/-- A `Put` into an existing bucket with a key and a value within the limits succeeds; it
stores the value and leaves the other buckets alone. -/
theorem txPut_exists (tx : Store) (name key : GoString) (v : Value)
    (hb : (txBucket tx name).isSome = true) (h0 : key ≠ [])
    (h1 : key.length ≤ MaxKeySize) (h2 : v.bytes.length ≤ MaxValueSize) :
    ∃ tx', txPut tx name key v = .ok tx' ∧ stored tx' name key = some v
      ∧ (∀ name0, name0 ≠ name → txBucket tx' name0 = txBucket tx name0)
      ∧ (txBucket tx' name).isSome = true := by
  obtain ⟨b, hb⟩ := exists_of_isSome hb
  refine ⟨_, txPut_eq_ok v hb (length_ne_zero_of_ne_nil h0) h1 h2, ?_, ?_, ?_⟩
  · rw [stored_put_self, KV.get_put_self]
  · intro name0 hne
    exact txBucket_put_ne _ _ _ _ hne
  · rw [txBucket_put_self]
    rfl

theorem CreateBucketIfNotExists_exists (tx : Store) (name : GoString) (h : name ≠ []) :
    ∃ tx', CreateBucketIfNotExists tx name = .ok tx' ∧ (txBucket tx' name).isSome = true
      ∧ (∀ name0, name0 ≠ name → txBucket tx' name0 = txBucket tx name0) := by
  unfold CreateBucketIfNotExists
  rw [if_neg h]
  cases hb : txBucket tx name with
  | some b =>
    refine ⟨tx, rfl, ?_, fun _ _ => rfl⟩
    rw [hb]
    rfl
  | none =>
    refine ⟨KV.put tx name [], rfl, ?_, ?_⟩
    · rw [txBucket_put_self]
      rfl
    · intro name0 hne
      exact txBucket_put_ne _ _ _ _ hne

theorem guardName_ok {name : GoString} (h : name ∉ RESERVED_BUCKET_NAMES) :
    guardName name = .ok () := by
  unfold guardName
  rw [if_neg]
  intro hany
  rw [List.any_eq_true] at hany
  obtain ⟨r, hr, he⟩ := hany
  simp only [decide_eq_true_eq] at he
  exact h (he ▸ hr)

theorem ToLower_reserved (U : GoString → GoString) {r : GoString}
    (h : r ∈ RESERVED_BUCKET_NAMES) : ToLower U r = r := by
  have hall : ∀ x ∈ RESERVED_BUCKET_NAMES, isASCII x = true ∧ x.map lowerByte = x := by decide
  obtain ⟨h1, h2⟩ := hall r h
  rw [ToLower_ascii U r h1, h2]

theorem append_colon_ne_nil (a b : GoString) : a ++ str ":" ++ b ≠ [] := by
  have hc : str ":" = [58] := by decide
  rw [hc]
  intro e
  have := congrArg List.length e
  simp at this


/-- `writeRel` of a record whose type name is already lowered, non-empty and not reserved, on
a store with the four relationship buckets, with keys and record within the limits of bbolt:
the transaction commits and every index holds the record. -/
theorem writeRel_exists (U : GoString → GoString) (db : Store) (rel : Relationship)
    (hidem : normalizeRelationshipName U rel.Relationship = rel.Relationship)
    (hne : rel.Relationship ≠ []) (hlen : rel.Relationship.length ≤ MaxKeySize)
    (hres : rel.Relationship ∉ RESERVED_BUCKET_NAMES)
    (h1 : (txBucket db (str "reltypes")).isSome = true)
    (h2 : (txBucket db (str "reltypeindex")).isSome = true)
    (h3 : (txBucket db (str "relsincoming")).isSome = true)
    (h4 : (txBucket db (str "relsoutgoing")).isSome = true)
    (hid0 : rel.ID ≠ []) (hid : rel.ID.length ≤ MaxKeySize)
    (hin : (rel.To ++ str ":" ++ rel.From).length ≤ MaxKeySize)
    (hout : (rel.From ++ str ":" ++ rel.To).length ≤ MaxKeySize)
    (hfit : (marshalRel rel).length ≤ MaxValueSize) :
    ∃ db', writeRel U db rel = (.ok (), db')
      ∧ stored db' (str "reltypes") rel.Relationship = some (.raw [])
      ∧ stored db' (str "reltypeindex") rel.ID = some (.raw rel.Relationship)
      ∧ stored db' (str "relsincoming") (rel.To ++ str ":" ++ rel.From) = some (.rel rel)
      ∧ stored db' (str "relsoutgoing") (rel.From ++ str ":" ++ rel.To) = some (.rel rel)
      ∧ stored db' rel.Relationship rel.ID = some (.rel rel) := by
  have hL1 : rel.Relationship ≠ str "reltypes" := fun e => hres (by rw [e]; decide)
  have hL2 : rel.Relationship ≠ str "reltypeindex" := fun e => hres (by rw [e]; decide)
  have hL3 : rel.Relationship ≠ str "relsincoming" := fun e => hres (by rw [e]; decide)
  have hL4 : rel.Relationship ≠ str "relsoutgoing" := fun e => hres (by rw [e]; decide)
  have hrel : ({ rel with Relationship := normalizeRelationshipName U rel.Relationship }
      : Relationship) = rel := by
    rw [hidem]
  have hsz : MaxKeySize ≤ MaxValueSize := by decide
  obtain ⟨tx0, e0, b0, n0⟩ := CreateBucketIfNotExists_exists db rel.Relationship hne
  obtain ⟨tx1, e1, s1, n1, _⟩ := txPut_exists tx0 (str "reltypes") rel.Relationship (.raw [])
    (by rw [n0 _ (Ne.symm hL1)]; exact h1) hne hlen (by decide)
  obtain ⟨tx2, e2, s2, n2, _⟩ := txPut_exists tx1 (str "reltypeindex") rel.ID
    (.raw rel.Relationship)
    (by rw [n1 _ (by decide), n0 _ (Ne.symm hL2)]; exact h2) hid0 hid (le_trans hlen hsz)
  obtain ⟨tx3, e3, s3, n3, _⟩ := txPut_exists tx2 (str "relsincoming")
    (rel.To ++ str ":" ++ rel.From) (.rel rel)
    (by rw [n2 _ (by decide), n1 _ (by decide), n0 _ (Ne.symm hL3)]; exact h3)
    (append_colon_ne_nil _ _) hin hfit
  obtain ⟨tx4, e4, s4, n4, _⟩ := txPut_exists tx3 (str "relsoutgoing")
    (rel.From ++ str ":" ++ rel.To) (.rel rel)
    (by rw [n3 _ (by decide), n2 _ (by decide), n1 _ (by decide), n0 _ (Ne.symm hL4)]; exact h4)
    (append_colon_ne_nil _ _) hout hfit
  obtain ⟨tx5, e5, s5, n5, _⟩ := txPut_exists tx4 rel.Relationship rel.ID (.rel rel)
    (by rw [n4 _ hL4, n3 _ hL3, n2 _ hL2, n1 _ hL1]; exact b0) hid0 hid hfit
  refine ⟨tx5, ?_, ?_, ?_, ?_, ?_, s5⟩
  · have heta : (⟨rel.ID, rel.From, rel.To, rel.Relationship, rel.Version, rel.Data⟩
          : Relationship) = rel := rfl
    unfold writeRel Update
    simp only [hidem, heta, bind, Except.bind, e0, e1, e2, e3, e4, e5, pure, Except.pure]
  · rw [stored_of_txBucket_eq _ (n5 _ (Ne.symm hL1)), stored_of_txBucket_eq _ (n4 _ (by decide)),
      stored_of_txBucket_eq _ (n3 _ (by decide)), stored_of_txBucket_eq _ (n2 _ (by decide))]
    exact s1
  · rw [stored_of_txBucket_eq _ (n5 _ (Ne.symm hL2)), stored_of_txBucket_eq _ (n4 _ (by decide)),
      stored_of_txBucket_eq _ (n3 _ (by decide))]
    exact s2
  · rw [stored_of_txBucket_eq _ (n5 _ (Ne.symm hL3)), stored_of_txBucket_eq _ (n4 _ (by decide))]
    exact s3
  · rw [stored_of_txBucket_eq _ (n5 _ (Ne.symm hL4))]
    exact s4


/-! ## The claims, continued -/

set_option maxRecDepth 100000 in
/-- C11 (fails on the code).  The item `ulid1` is stored and has the edges `ulid1 → ulid2`,
`ulid1 → ulid3` and `ulid4 → ulid1`.  `DeleteCI ulid1` finds two of them (see C9), the first
`DeleteRelationship` returns `ErrKeyNotFound` (see C8, C10), and `DeleteCI` returns that error
with the store as it was: `cis[ulid1]` and every edge stay, and `GetRelationshipsByCI` of
`ulid1` and of its counterpart `ulid2` still return edges touching `ulid1`. -/
theorem C11_DeleteCI_fails_with_edges (U : GoString → GoString) :
    bucketKeys (addEdge41 U).2 (str "relsoutgoing") = some [edge12.ID, edge13.ID, edge41.ID]
    ∧ DeleteCI (addEdge41 U).2 ulid1 = (.error .ErrKeyNotFound, (addEdge41 U).2)
    ∧ (stored (addEdge41 U).2 (str "cis") ulid1).isSome = true
    ∧ GetRelationshipsByCI (addEdge41 U).2 ulid1 = .ok [edge12, edge41]
    ∧ GetRelationshipsByCI (addEdge41 U).2 ulid2 = .ok [edge12] := by
  rw [addEdge41_congr U]
  decide

set_option maxRecDepth 100000 in
/-- C12 (fails on the code).  `UpdateRelationship` of an edge just added returns
`ErrKeyNotFound`, from `GetRelationship` (see C8); nothing is written and the stored record
keeps version `0` and its old data. -/
theorem C12_UpdateRelationship_not_found (U : GoString → GoString) :
    (addEdge12 U).1 = .ok edge12
    ∧ UpdateRelationship U (addEdge12 U).2 edge12.ID masterWeb03
        = (.error .ErrKeyNotFound, (addEdge12 U).2)
    ∧ stored (addEdge12 U).2 (str "connected-to") edge12.ID = some (.rel edge12) := by
  rw [addEdge12_congr U]
  exact ⟨by decide, UpdateRelationship_of_no_rels U _ _ _ (by decide), by decide⟩

set_option maxRecDepth 100000 in
/-- C13 (fails on the code).  The scenario of `example/main.go` with a rename: `AddCI(web01)`
creates the type `md5("hostnameip")`, which is the type id the specification derives for
`web02` too, and `UpdateCITypeName` names it `webserver`.  The later `AddCI(web02)`, with
`hashData` visiting the keys as `ip`, `hostname`, returns the type id `md5("iphostname")` and
the empty name, and creates `citypes[md5("iphostname")]`; with the keys visited in ascending
order the same call returns the renamed type.  See C1. -/
theorem C13_renamed_type_not_kept (U : GoString → GoString) :
    deriveTypeIdSpec U web02 = md5Sum (str "hostnameip")
    ∧ (addWeb01 U).1 = .ok ⟨ulid1, 0, web01, ⟨md5Sum (str "hostnameip"), []⟩⟩
    ∧ (renameWeb01 U).1 = .ok ()
    ∧ stored (renameWeb01 U).2 (str "citypes") (md5Sum (str "hostnameip"))
        = some (.raw (str "webserver"))
    ∧ (addWeb02 U).1 = .ok ⟨ulid2, 0, web02, ⟨md5Sum (str "iphostname"), []⟩⟩
    ∧ md5Sum (str "iphostname") ≠ md5Sum (str "hostnameip")
    ∧ stored (addWeb02 U).2 (str "citypes") (md5Sum (str "iphostname")) = some (.raw [])
    ∧ (addWeb02Sorted U).1
        = .ok ⟨ulid2, 0, web02, ⟨md5Sum (str "hostnameip"), str "webserver"⟩⟩ := by
  rw [deriveTypeIdSpec_congr U (fun s => s) web02 (by decide), addWeb01_congr U,
    renameWeb01_congr U, addWeb02_congr U, addWeb02Sorted_congr U]
  decide

set_option maxRecDepth 100000 in
/-- C15 (fails on the code).  After `AddCI` the item is stored in `cis`, and `GetCis` returns
`ErrBucketNotFound`: it opens the bucket `nodes`, which `NewDB` does not create, instead of
`cis`. -/
theorem C15_GetCis_bucket_not_found (U : GoString → GoString) :
    bucketKeys (addHostA U).2 (str "cis") = some [ulid1]
    ∧ bucketKeys (addHostA U).2 (str "nodes") = none
    ∧ GetCis (addHostA U).2 = .error .ErrBucketNotFound := by
  rw [addHostA_congr U]
  decide

set_option maxRecDepth 100000 in
/-- C17 (fails on the code).  The ordered pair `ulid1`, `ulid2` is added under the type `uses`
and again under `owns`.  `writeRel` overwrites `reltypeindex` and both adjacency entries and
leaves the record in the bucket `uses`: that record is stored under a type bucket that
`reltypeindex` does not name, and the adjacency entries decode to another record. -/
theorem C17_stale_record_after_second_type (U : GoString → GoString) :
    (addUses U).1 = .ok edgeUses ∧ (addOwns U).1 = .ok edgeOwns
    ∧ stored (addOwns U).2 (str "uses") edgeUses.ID = some (.rel edgeUses)
    ∧ stored (addOwns U).2 (str "reltypeindex") edgeUses.ID = some (.raw (str "owns"))
    ∧ stored (addOwns U).2 (str "relsoutgoing") (ulid1 ++ str ":" ++ ulid2)
        = some (.rel edgeOwns)
    ∧ stored (addOwns U).2 (str "relsincoming") (ulid2 ++ str ":" ++ ulid1)
        = some (.rel edgeOwns)
    ∧ unmarshalRel (some (.rel edgeUses)) ≠ unmarshalRel (some (.rel edgeOwns)) := by
  rw [addOwns_congr U, addUses_congr U]
  decide

set_option maxRecDepth 100000 in
/-- C18 (fails on the code).  After `AddCI(hostA)` the record in `cis` under `ulid1` reads
back with the type id `t`, the digest of `"hostname"` with its invalid bytes replaced (see
C4); `cisbytype` holds one key, made of the raw digest, and has no key `"<t>:<ulid1>"`. -/
theorem C18_no_index_key_for_stored_type_id (U : GoString → GoString) :
    typeIdOf (GetCI (addHostA U).2 ulid1) = .ok (toValidUTF8 (md5Sum (str "hostname")))
    ∧ stored (addHostA U).2 (str "cisbytype")
        (toValidUTF8 (md5Sum (str "hostname")) ++ str ":" ++ ulid1) = none
    ∧ bucketKeys (addHostA U).2 (str "cisbytype")
        = some [md5Sum (str "hostname") ++ str ":" ++ ulid1] := by
  rw [addHostA_congr U]
  decide

set_option maxRecDepth 100000 in
/-- C19 (fails on the code).  `DeleteCI ulid1` succeeds and empties `cis`, and the key of the
deleted item stays in `cisbytype`.  `UpdateCI ulid1` with the labels `ipLabels` changes the
type of the item to the digest of `"ip"`, adds the new key and leaves the old key in
`cisbytype`.  Neither function deletes from `cisbytype`. -/
theorem C19_stale_type_index_entries (U : GoString → GoString) :
    (DeleteCI (addHostA U).2 ulid1).1 = .ok ()
    ∧ bucketKeys (DeleteCI (addHostA U).2 ulid1).2 (str "cis") = some []
    ∧ bucketKeys (DeleteCI (addHostA U).2 ulid1).2 (str "cisbytype")
        = some [md5Sum (str "hostname") ++ str ":" ++ ulid1]
    ∧ (updateHostA U).1 = .ok ()
    ∧ typeIdOf (GetCI (updateHostA U).2 ulid1) = .ok (toValidUTF8 (md5Sum (str "ip")))
    ∧ bucketKeys (updateHostA U).2 (str "cisbytype")
        = some [md5Sum (str "hostname") ++ str ":" ++ ulid1,
                md5Sum (str "ip") ++ str ":" ++ ulid1] := by
  rw [updateHostA_congr U, addHostA_congr U]
  decide

set_option maxRecDepth 100000 in
/-- C16 as stated fails: the lowered form of the empty type name is not reserved, and
`AddRelationship` with the empty type name returns `ErrBucketNameRequired`, from
`CreateBucketIfNotExists`, and no edge. -/
theorem C16_counterexample :
    ¬ (∀ (U : GoString → GoString) (db : Store) (from_ to_ ty : GoString) (data : GoMap),
        normalizeRelationshipName U ty ∉ RESERVED_BUCKET_NAMES →
        ∃ e db', AddRelationship U db from_ to_ ty data = (.ok e, db')) := by
  intro H
  obtain ⟨e, db', h⟩ := H (fun s => s) freshDB ulid1 ulid2 [] [] (by decide)
  have h2 : AddRelationship (fun s => s) freshDB ulid1 ulid2 [] []
      = (.error .ErrBucketNameRequired, freshDB) := by decide
  rw [h2] at h
  cases h

/-- C16, amended.  On a store that has the buckets `reltypes`, `reltypeindex`, `relsincoming`
and `relsoutgoing`, for a type name whose lowered form is not empty, not reserved, not changed
by lower-casing it again and within the key size of bbolt, for ids whose pair `from:to` is
within the key size, and for a record within the value size: `AddRelationship` returns the
edge with id `from:to`, version `0` and the lowered type name, and afterwards `reltypes` holds
the lowered name, `reltypeindex[id]` is the lowered name, and `relsoutgoing[from:to]`,
`relsincoming[to:from]` and the type bucket under `id` hold the record of that edge. -/
theorem C16_AddRelationship_writes_every_index (U : GoString → GoString) (db : Store)
    (from_ to_ ty : GoString) (data : GoMap)
    (h1 : (txBucket db (str "reltypes")).isSome = true)
    (h2 : (txBucket db (str "reltypeindex")).isSome = true)
    (h3 : (txBucket db (str "relsincoming")).isSome = true)
    (h4 : (txBucket db (str "relsoutgoing")).isSome = true)
    (hres : normalizeRelationshipName U ty ∉ RESERVED_BUCKET_NAMES)
    (hne : normalizeRelationshipName U ty ≠ [])
    (hidem : normalizeRelationshipName U (normalizeRelationshipName U ty)
      = normalizeRelationshipName U ty)
    (hlen : (normalizeRelationshipName U ty).length ≤ MaxKeySize)
    (hkey : from_.length + to_.length + 1 ≤ MaxKeySize)
    (hfit : (marshalRel ⟨from_ ++ str ":" ++ to_, from_, to_,
      normalizeRelationshipName U ty, 0, data⟩).length ≤ MaxValueSize) :
    ∃ db', AddRelationship U db from_ to_ ty data
        = (.ok ⟨from_ ++ str ":" ++ to_, from_, to_, normalizeRelationshipName U ty, 0, data⟩,
            db')
      ∧ stored db' (str "reltypes") (normalizeRelationshipName U ty) = some (.raw [])
      ∧ stored db' (str "reltypeindex") (from_ ++ str ":" ++ to_)
          = some (.raw (normalizeRelationshipName U ty))
      ∧ stored db' (str "relsoutgoing") (from_ ++ str ":" ++ to_)
          = some (.rel ⟨from_ ++ str ":" ++ to_, from_, to_,
              normalizeRelationshipName U ty, 0, data⟩)
      ∧ stored db' (str "relsincoming") (to_ ++ str ":" ++ from_)
          = some (.rel ⟨from_ ++ str ":" ++ to_, from_, to_,
              normalizeRelationshipName U ty, 0, data⟩)
      ∧ stored db' (normalizeRelationshipName U ty) (from_ ++ str ":" ++ to_)
          = some (.rel ⟨from_ ++ str ":" ++ to_, from_, to_,
              normalizeRelationshipName U ty, 0, data⟩) := by
  have hc : (str ":").length = 1 := by decide
  have hg : guardName ty = .ok () := by
    apply guardName_ok
    intro hty
    apply hres
    unfold normalizeRelationshipName
    rw [ToLower_reserved U hty]
    exact hty
  have hk1 : (from_ ++ str ":" ++ to_).length ≤ MaxKeySize := by
    rw [List.length_append, List.length_append, hc]
    omega
  have hk2 : (to_ ++ str ":" ++ from_).length ≤ MaxKeySize := by
    rw [List.length_append, List.length_append, hc]
    omega
  obtain ⟨db', hw, s1, s2, s3, s4, s5⟩ := writeRel_exists U db
    ⟨from_ ++ str ":" ++ to_, from_, to_, normalizeRelationshipName U ty, 0, data⟩
    hidem hne hlen hres h1 h2 h3 h4 (append_colon_ne_nil _ _) hk1 hk2 hk1 hfit
  refine ⟨db', ?_, s1, s2, s4, s3, s5⟩
  unfold AddRelationship
  simp only [hg, hw]

set_option maxRecDepth 100000 in
/-- C16, amended, at the relationship of `example/main.go` with the type name written
`Connected-To`, on a new store. -/
theorem C16_AddRelationship_writes_every_index_witness :
    normalizeRelationshipName (fun s => s) (str "Connected-To") = str "connected-to"
    ∧ ∃ db', AddRelationship (fun s => s) freshDB ulid1 ulid2 (str "Connected-To") masterWeb02
        = (.ok ⟨ulid1 ++ str ":" ++ ulid2, ulid1, ulid2,
            normalizeRelationshipName (fun s => s) (str "Connected-To"), 0, masterWeb02⟩, db')
      ∧ stored db' (str "reltypes") (normalizeRelationshipName (fun s => s) (str "Connected-To"))
          = some (.raw [])
      ∧ stored db' (str "reltypeindex") (ulid1 ++ str ":" ++ ulid2)
          = some (.raw (normalizeRelationshipName (fun s => s) (str "Connected-To")))
      ∧ stored db' (str "relsoutgoing") (ulid1 ++ str ":" ++ ulid2)
          = some (.rel ⟨ulid1 ++ str ":" ++ ulid2, ulid1, ulid2,
              normalizeRelationshipName (fun s => s) (str "Connected-To"), 0, masterWeb02⟩)
      ∧ stored db' (str "relsincoming") (ulid2 ++ str ":" ++ ulid1)
          = some (.rel ⟨ulid1 ++ str ":" ++ ulid2, ulid1, ulid2,
              normalizeRelationshipName (fun s => s) (str "Connected-To"), 0, masterWeb02⟩)
      ∧ stored db' (normalizeRelationshipName (fun s => s) (str "Connected-To"))
            (ulid1 ++ str ":" ++ ulid2)
          = some (.rel ⟨ulid1 ++ str ":" ++ ulid2, ulid1, ulid2,
              normalizeRelationshipName (fun s => s) (str "Connected-To"), 0, masterWeb02⟩) :=
  ⟨by decide,
    C16_AddRelationship_writes_every_index (fun s => s) freshDB ulid1 ulid2
      (str "Connected-To") masterWeb02 (by decide) (by decide) (by decide) (by decide)
      (by decide) (by decide) (by decide) (by decide) (by decide) (by decide)⟩

/-! ## Lemmas: the keys of a normalised map and prefix codes -/

theorem mem_keys_put (l : GoMap) (k k0 v : GoString) :
    k0 ∈ GoMap.keys (KV.put l k v) ↔ k0 = k ∨ k0 ∈ GoMap.keys l := by
  induction l with
  | nil => simp [KV.put, GoMap.keys]
  | cons x t ih =>
    obtain ⟨k', v'⟩ := x
    by_cases h1 : k = k'
    · subst h1
      rw [KV.put_cons_eq]
      simp [GoMap.keys]
    · by_cases h2 : bytesLt k k' = true
      · rw [KV.put_cons_lt v' t v h1 h2]
        simp [GoMap.keys]
      · rw [KV.put_cons_gt v' t v h1 h2]
        have : GoMap.keys ((k', v') :: KV.put t k v) = k' :: GoMap.keys (KV.put t k v) := rfl
        rw [this, List.mem_cons, ih]
        have : GoMap.keys ((k', v') :: t) = k' :: GoMap.keys t := rfl
        rw [this, List.mem_cons]
        tauto

theorem mem_keys_foldl_put_entries (f : GoString → GoString) (m acc : GoMap) (k0 : GoString) :
    k0 ∈ GoMap.keys (m.foldl (fun acc kv => KV.put acc (f kv.1) kv.2) acc)
      ↔ k0 ∈ GoMap.keys acc ∨ k0 ∈ (GoMap.keys m).map f := by
  induction m generalizing acc with
  | nil => simp [GoMap.keys]
  | cons x t ih =>
    rw [List.foldl_cons, ih, mem_keys_put]
    have : GoMap.keys (x :: t) = x.1 :: GoMap.keys t := rfl
    rw [this, List.map_cons, List.mem_cons]
    tauto

theorem mem_keys_foldl_put_keys (g : GoString → GoString) (ks : List GoString) (acc : GoMap)
    (k0 : GoString) :
    k0 ∈ GoMap.keys (ks.foldl (fun m k => KV.put m k (g k)) acc)
      ↔ k0 ∈ GoMap.keys acc ∨ k0 ∈ ks := by
  induction ks generalizing acc with
  | nil => simp
  | cons x t ih =>
    rw [List.foldl_cons, ih, mem_keys_put, List.mem_cons]
    tauto

theorem mem_insertString (k x : GoString) (l : List GoString) :
    x ∈ insertString k l ↔ x = k ∨ x ∈ l := by
  induction l with
  | nil => simp [insertString]
  | cons y t ih =>
    unfold insertString
    split
    · rw [List.mem_cons, ih, List.mem_cons]
      tauto
    · simp only [List.mem_cons]

theorem mem_sortStrings (x : GoString) (l : List GoString) : x ∈ sortStrings l ↔ x ∈ l := by
  unfold sortStrings
  induction l with
  | nil => simp
  | cons y t ih =>
    rw [List.foldr_cons, mem_insertString, ih, List.mem_cons]

theorem mem_keys_rangeOrder (s : Nat) (m : GoMap) (k : GoString) :
    k ∈ GoMap.keys (rangeOrder s m) ↔ k ∈ GoMap.keys m := by
  unfold GoMap.keys
  exact ((rangeOrder_perm s m).map Prod.fst).mem_iff

/-- The keys of the map `normalizeData` returns are the lower-cased keys of its argument. -/
theorem mem_keys_normalizeData (U : GoString → GoString) (s1 s2 : Nat) (data : GoMap)
    (k : GoString) :
    k ∈ GoMap.keys (normalizeData U s1 s2 data) ↔ k ∈ loweredKeys U data := by
  unfold normalizeData loweredKeys
  simp only
  rw [mem_keys_foldl_put_keys, mem_sortStrings, mem_keys_rangeOrder,
    mem_keys_foldl_put_entries]
  simp only [GoMap.keys, List.map_nil, List.not_mem_nil, false_or, List.mem_map]
  constructor
  · rintro ⟨a, ⟨p, hp, rfl⟩, rfl⟩
    exact ⟨p.1, ⟨p, (mem_rangeOrder s1 data p).1 hp, rfl⟩, rfl⟩
  · rintro ⟨a, ⟨p, hp, rfl⟩, rfl⟩
    exact ⟨p.1, ⟨p, (mem_rangeOrder s1 data p).2 hp, rfl⟩, rfl⟩

theorem foldl_append_init (l : List GoString) (init : GoString) :
    l.foldl (fun labelsString k => labelsString ++ k) init
      = init ++ l.foldl (fun labelsString k => labelsString ++ k) [] := by
  induction l generalizing init with
  | nil => simp
  | cons x t ih =>
    rw [List.foldl_cons, List.foldl_cons, ih (init ++ x), ih ([] ++ x)]
    simp

theorem foldl_append_cons (x : GoString) (t : List GoString) :
    (x :: t).foldl (fun labelsString k => labelsString ++ k) []
      = x ++ t.foldl (fun labelsString k => labelsString ++ k) [] := by
  rw [List.foldl_cons, foldl_append_init]
  simp

theorem hasPrefix_of_append_eq (a b x y : GoString) (h : a ++ x = b ++ y) :
    hasPrefix b a = true ∨ hasPrefix a b = true := by
  induction a generalizing b with
  | nil => left; cases b <;> rfl
  | cons c a ih =>
    cases b with
    | nil => right; rfl
    | cons d b =>
      simp only [List.cons_append, List.cons.injEq] at h
      obtain ⟨hcd, h⟩ := h
      subst hcd
      rcases ih b h with h | h
      · left; simp [hasPrefix, h]
      · right; simp [hasPrefix, h]

theorem isPrefixCode_ne_nil {l : List GoString} (h : isPrefixCode l = true) {a : GoString}
    (ha : a ∈ l) : a ≠ [] := by
  unfold isPrefixCode at h
  rw [List.all_eq_true] at h
  have := h a ha
  simp only [Bool.and_eq_true, bne_iff_ne, ne_eq] at this
  exact this.1

theorem isPrefixCode_eq {l : List GoString} (h : isPrefixCode l = true) {a b : GoString}
    (ha : a ∈ l) (hb : b ∈ l) (hp : hasPrefix b a = true) : a = b := by
  unfold isPrefixCode at h
  rw [List.all_eq_true] at h
  have := (h a ha)
  simp only [Bool.and_eq_true, List.all_eq_true, Bool.or_eq_true, Bool.not_eq_true',
    beq_iff_eq] at this
  rcases this.2 b hb with h1 | h1
  · rw [hp] at h1; cases h1
  · exact h1

/-- Two lists of words of a prefix code with the same concatenation are the same list. -/
theorem uniquely_decodable (c : List GoString) (hc : isPrefixCode c = true)
    (l1 l2 : List GoString) (h1 : ∀ a ∈ l1, a ∈ c) (h2 : ∀ a ∈ l2, a ∈ c)
    (h : l1.foldl (fun labelsString k => labelsString ++ k) []
      = l2.foldl (fun labelsString k => labelsString ++ k) []) : l1 = l2 := by
  induction l1 generalizing l2 with
  | nil =>
    cases l2 with
    | nil => rfl
    | cons b u =>
      rw [foldl_append_cons] at h
      have hb : b = [] := (List.append_eq_nil.1 h.symm).1
      exact absurd hb (isPrefixCode_ne_nil hc (h2 b (List.mem_cons_self _ _)))
  | cons a t ih =>
    cases l2 with
    | nil =>
      rw [foldl_append_cons] at h
      have ha : a = [] := (List.append_eq_nil.1 h).1
      exact absurd ha (isPrefixCode_ne_nil hc (h1 a (List.mem_cons_self _ _)))
    | cons b u =>
      rw [foldl_append_cons, foldl_append_cons] at h
      have ha := h1 a (List.mem_cons_self _ _)
      have hb := h2 b (List.mem_cons_self _ _)
      have hab : a = b := by
        rcases hasPrefix_of_append_eq a b _ _ h with hp | hp
        · exact isPrefixCode_eq hc ha hb hp
        · exact (isPrefixCode_eq hc hb ha hp).symm
      subst hab
      have ht := List.append_cancel_left h
      rw [ih u (fun x hx => h1 x (List.mem_cons_of_mem _ hx))
        (fun x hx => h2 x (List.mem_cons_of_mem _ hx)) ht]

theorem sameKeySet_of_mem_iff (l1 l2 : List GoString) (h : ∀ k, k ∈ l1 ↔ k ∈ l2) :
    sameKeySet l1 l2 = true := by
  unfold sameKeySet
  simp only [Bool.and_eq_true, List.all_eq_true, decide_eq_true_eq]
  exact ⟨fun k hk => (h k).1 hk, fun k hk => (h k).2 hk⟩

/-! ## Lemmas: the adjacency buckets -/

theorem str_colon : str ":" = [58] := by decide

theorem eq_of_hasPrefix_colon (a b x : GoString) (ha : colonFree a = true)
    (hx : colonFree x = true) (h : hasPrefix (a ++ str ":" ++ b) (x ++ str ":") = true) :
    a = x := by
  rw [str_colon] at h
  induction a generalizing x with
  | nil =>
    cases x with
    | nil => rfl
    | cons c x' =>
      simp only [colonFree, List.all_cons, Bool.and_eq_true, bne_iff_ne, ne_eq] at hx
      simp only [List.nil_append, List.cons_append, hasPrefix, Bool.and_eq_true,
        beq_iff_eq] at h
      exact absurd h.1.symm hx.1
  | cons d a' ih =>
    cases x with
    | nil =>
      simp only [colonFree, List.all_cons, Bool.and_eq_true, bne_iff_ne, ne_eq] at ha
      simp only [List.nil_append, List.cons_append, hasPrefix, Bool.and_eq_true,
        beq_iff_eq] at h
      exact absurd h.1 ha.1
    | cons c x' =>
      simp only [colonFree, List.all_cons, Bool.and_eq_true] at ha hx
      simp only [List.cons_append, hasPrefix, Bool.and_eq_true, beq_iff_eq] at h
      rw [h.1, ih x' ha.2 hx.2 h.2]

theorem AdjInv_freshDB : AdjInv freshDB := by
  intro name hname b hb kv hkv
  have h1 : txBucket freshDB (str "relsoutgoing") = some [] := by decide
  have h2 : txBucket freshDB (str "relsincoming") = some [] := by decide
  rcases hname with rfl | rfl
  · rw [h1] at hb
    cases hb
    cases hkv
  · rw [h2] at hb
    cases hb
    cases hkv

theorem AdjInv_put {tx : Store} (name : GoString) (b : Bucket) (h : AdjInv tx)
    (hb : (name = str "relsoutgoing" ∨ name = str "relsincoming") → ∀ kv ∈ b, AdjEntry kv) :
    AdjInv (KV.put tx name b) := by
  intro name0 hadj b0 hget kv hkv
  by_cases hn : name0 = name
  · subst hn
    rw [txBucket_put_self] at hget
    cases hget
    exact hb hadj kv hkv
  · rw [txBucket_put_ne _ _ _ _ hn] at hget
    exact h name0 hadj b0 hget kv hkv

theorem AdjInv_txPut {tx tx' : Store} {name key : GoString} {v : Value}
    (hp : txPut tx name key v = .ok tx') (h : AdjInv tx)
    (he : (name = str "relsoutgoing" ∨ name = str "relsincoming") → AdjEntry (key, v)) :
    AdjInv tx' := by
  obtain ⟨b, hb, rfl⟩ := txPut_ok hp
  apply AdjInv_put _ _ h
  intro hadj kv hkv
  rcases KV.mem_put hkv with hkv | hkv
  · rw [hkv]
    exact he hadj
  · exact h name hadj b hb kv hkv

theorem AdjInv_create {tx tx' : Store} {name : GoString}
    (hc : CreateBucketIfNotExists tx name = .ok tx') (h : AdjInv tx) : AdjInv tx' := by
  unfold CreateBucketIfNotExists at hc
  split at hc
  · cases hc
  · split at hc
    · cases hc
      exact h
    · cases hc
      apply AdjInv_put _ _ h
      intro _ kv hkv
      cases hkv


theorem Update_snd {α : Type} (db : Store) (fn : Store → Except Err (α × Store)) :
    (Update db fn).2 = db ∨ ∃ a, fn db = .ok (a, (Update db fn).2) := by
  unfold Update
  cases hf : fn db with
  | error e => exact Or.inl rfl
  | ok r =>
    obtain ⟨a, tx⟩ := r
    exact Or.inr ⟨a, rfl⟩

/-- `writeRel` keeps the adjacency buckets made of adjacency entries. -/
theorem AdjInv_writeRel (U : GoString → GoString) (db : Store) (rel : Relationship)
    (h : AdjInv db) (hid : rel.ID = rel.From ++ str ":" ++ rel.To)
    (hf : cleanId rel.From = true) (ht : cleanId rel.To = true) :
    AdjInv (writeRel U db rel).2 := by
  unfold writeRel
  rcases Update_snd db _ with hs | ⟨a, hs⟩
  · rw [hs]
    exact h
  · generalize (Update db _).2 = db' at hs
    simp only [bind, Except.bind, pure, Except.pure] at hs
    have hentry : ∀ key, (key = rel.From ++ str ":" ++ rel.To ∨ key = rel.To ++ str ":" ++ rel.From) →
        AdjEntry (key, Value.rel ⟨rel.ID, rel.From, rel.To,
          normalizeRelationshipName U rel.Relationship, rel.Version, rel.Data⟩) :=
      fun key hk => ⟨_, rfl, hf, ht, hk⟩
    cases e0 : CreateBucketIfNotExists db (normalizeRelationshipName U rel.Relationship) with
    | error e => rw [e0] at hs; cases hs
    | ok tx0 =>
      rw [e0] at hs
      simp only at hs
      have i0 := AdjInv_create e0 h
      cases e1 : txPut tx0 (str "reltypes") (normalizeRelationshipName U rel.Relationship)
          (.raw []) with
      | error e => rw [e1] at hs; cases hs
      | ok tx1 =>
        rw [e1] at hs
        simp only at hs
        have i1 := AdjInv_txPut e1 i0 (fun hn => absurd hn
          (show ¬ (str "reltypes" = str "relsoutgoing" ∨ str "reltypes" = str "relsincoming")
            by decide))
        cases e2 : txPut tx1 (str "reltypeindex") rel.ID
            (.raw (normalizeRelationshipName U rel.Relationship)) with
        | error e => rw [e2] at hs; cases hs
        | ok tx2 =>
          rw [e2] at hs
          simp only at hs
          have i2 := AdjInv_txPut e2 i1 (fun hn => absurd hn
            (show ¬ (str "reltypeindex" = str "relsoutgoing"
              ∨ str "reltypeindex" = str "relsincoming") by decide))
          cases e3 : txPut tx2 (str "relsincoming") (rel.To ++ str ":" ++ rel.From)
              (.rel ⟨rel.ID, rel.From, rel.To,
                normalizeRelationshipName U rel.Relationship, rel.Version, rel.Data⟩) with
          | error e => rw [e3] at hs; cases hs
          | ok tx3 =>
            rw [e3] at hs
            simp only at hs
            have i3 := AdjInv_txPut e3 i2 (fun _ => hentry _ (Or.inr rfl))
            cases e4 : txPut tx3 (str "relsoutgoing") (rel.From ++ str ":" ++ rel.To)
                (.rel ⟨rel.ID, rel.From, rel.To,
                  normalizeRelationshipName U rel.Relationship, rel.Version, rel.Data⟩) with
            | error e => rw [e4] at hs; cases hs
            | ok tx4 =>
              rw [e4] at hs
              simp only at hs
              have i4 := AdjInv_txPut e4 i3 (fun _ => hentry _ (Or.inl rfl))
              cases e5 : txPut tx4 (normalizeRelationshipName U rel.Relationship) rel.ID
                  (.rel ⟨rel.ID, rel.From, rel.To,
                    normalizeRelationshipName U rel.Relationship, rel.Version, rel.Data⟩) with
              | error e => rw [e5] at hs; cases hs
              | ok tx5 =>
                rw [e5] at hs
                simp only [Except.ok.injEq, Prod.mk.injEq] at hs
                rw [← hs.2]
                exact AdjInv_txPut e5 i4 (fun _ => hentry _ (Or.inl hid))

theorem AddRelationship_snd (U : GoString → GoString) (db : Store)
    (from_ to_ ty : GoString) (data : GoMap) :
    (AddRelationship U db from_ to_ ty data).2 = db
      ∨ (AddRelationship U db from_ to_ ty data).2
        = (writeRel U db ⟨from_ ++ str ":" ++ to_, from_, to_,
            normalizeRelationshipName U ty, 0, data⟩).2 := by
  unfold AddRelationship
  cases guardName ty with
  | error e => exact Or.inl rfl
  | ok u =>
    right
    simp only
    cases hw : writeRel U db ⟨from_ ++ str ":" ++ to_, from_, to_,
        normalizeRelationshipName U ty, 0, data⟩ with
    | mk r db' =>
      cases r <;> rfl

theorem AdjInv_of_built (U : GoString → GoString) {db : Store}
    (h : BuiltByAdd U cleanId db) : AdjInv db := by
  induction h with
  | fresh => exact AdjInv_freshDB
  | add from_ to_ ty data _ hf ht ih =>
    rcases AddRelationship_snd U _ from_ to_ ty data with e | e
    · rw [e]
      exact ih
    · rw [e]
      exact AdjInv_writeRel U _ _ ih rfl hf ht


/-- Every edge one loop of `GetRelationshipsByCI` appends is decoded from the pair the loop
starts on, whose key has the prefix. -/
theorem GetRelationshipsByCI.loop_mem (b : Bucket) (pre : GoString) (hpre : pre ≠ [])
    (fuel : Nat) (kv : Option (GoString × Value)) (rels out : List Relationship)
    (h : GetRelationshipsByCI.loop b pre fuel kv rels = .ok out) (e : Relationship)
    (he : e ∈ out) :
    e ∈ rels ∨ ∃ k v, kv = some (k, v) ∧ hasPrefix k pre = true
      ∧ unmarshalRel (some v) = .ok e := by
  cases fuel with
  | zero =>
    simp only [GetRelationshipsByCI.loop, Except.ok.injEq] at h
    rw [← h] at he
    exact Or.inl he
  | succ fuel =>
    simp only [GetRelationshipsByCI.loop] at h
    split at h
    · rename_i hp
      cases hu : unmarshalRel (Option.map Prod.snd kv) with
      | error e => rw [hu] at h; cases h
      | ok rel =>
        rw [hu] at h
        simp only at h
        have hn : (newCursor b).Next.1 = none := rfl
        rw [hn] at h
        have hout : out = rels ++ [rel] := by
          cases fuel with
          | zero =>
            simp only [GetRelationshipsByCI.loop, Except.ok.injEq] at h
            exact h.symm
          | succ fuel =>
            simp only [GetRelationshipsByCI.loop, Option.map_none', Option.getD_none,
              hasPrefix_nil_left pre hpre] at h
            simp only [Bool.false_eq_true, if_false, Except.ok.injEq] at h
            exact h.symm
        rw [hout, List.mem_append, List.mem_singleton] at he
        rcases he with he | he
        · exact Or.inl he
        · right
          cases kv with
          | none => cases hu
          | some p =>
            obtain ⟨k, v⟩ := p
            refine ⟨k, v, rfl, hp, ?_⟩
            rw [he]
            exact hu
    · simp only [Except.ok.injEq] at h
      rw [← h] at he
      exact Or.inl he

theorem Seek_mem (b : Bucket) (pre : GoString) (kv : GoString × Value)
    (h : ((newCursor b).Seek pre).1 = some kv) : kv ∈ b :=
  List.get?_mem h

theorem colonFree_of_cleanId {s : GoString} (h : cleanId s = true) : colonFree s = true := by
  unfold cleanId at h
  exact (Bool.and_eq_true _ _ ▸ h).1

theorem validUTF8_of_cleanId {s : GoString} (h : cleanId s = true) : validUTF8 s = true := by
  unfold cleanId at h
  exact (Bool.and_eq_true _ _ ▸ h).2

/-- An edge decoded from an adjacency entry whose key starts with `x:` starts or ends at
`x`. -/
theorem AdjEntry_sound (x k : GoString) (v : Value) (e : Relationship)
    (hx : colonFree x = true) (ha : AdjEntry (k, v)) (hp : hasPrefix k (x ++ str ":") = true)
    (hu : unmarshalRel (some v) = .ok e) : e.From = x ∨ e.To = x := by
  obtain ⟨r, hv, hf, ht, hk⟩ := ha
  simp only at hv hk
  rw [hv] at hu
  simp only [unmarshalRel, Except.ok.injEq] at hu
  rw [← hu]
  simp only
  rw [toValidUTF8_of_valid _ (validUTF8_of_cleanId hf),
    toValidUTF8_of_valid _ (validUTF8_of_cleanId ht)]
  rcases hk with hk | hk
  · rw [hk] at hp
    exact Or.inl (eq_of_hasPrefix_colon _ _ _ (colonFree_of_cleanId hf) hx hp)
  · rw [hk] at hp
    exact Or.inr (eq_of_hasPrefix_colon _ _ _ (colonFree_of_cleanId ht) hx hp)

/-- In a store whose adjacency buckets hold adjacency entries, every edge of
`GetRelationshipsByCI db x` starts or ends at `x`. -/
theorem GetRelationshipsByCI_sound (db : Store) (x : GoString) (out : List Relationship)
    (e : Relationship) (hinv : AdjInv db) (hx : colonFree x = true)
    (h : GetRelationshipsByCI db x = .ok out) (he : e ∈ out) : e.From = x ∨ e.To = x := by
  have hpre : x ++ str ":" ≠ [] := by
    intro e
    rw [str_colon] at e
    exact List.cons_ne_nil _ _ (List.append_eq_nil.1 e).2
  unfold GetRelationshipsByCI at h
  cases h1 : txBucket db (str "relsoutgoing") with
  | none => rw [h1] at h; cases h
  | some ob =>
    cases h2 : txBucket db (str "relsincoming") with
    | none => rw [h1, h2] at h; cases h
    | some ib =>
      rw [h1, h2] at h
      simp only at h
      cases h3 : GetRelationshipsByCI.loop ob (x ++ str ":") (ob.length + 1)
          ((newCursor ob).Seek (x ++ str ":")).1 [] with
      | error e => rw [h3] at h; cases h
      | ok rels =>
        rw [h3] at h
        simp only at h
        rcases GetRelationshipsByCI.loop_mem ib _ hpre _ _ _ _ h e he with m | ⟨k, v, hs, hp, hu⟩
        · rcases GetRelationshipsByCI.loop_mem ob _ hpre _ _ _ _ h3 e m with m | ⟨k, v, hs, hp, hu⟩
          · cases m
          · exact AdjEntry_sound x k v e hx
              (hinv _ (Or.inl rfl) ob h1 _ (Seek_mem ob _ _ hs)) hp hu
        · exact AdjEntry_sound x k v e hx
            (hinv _ (Or.inr rfl) ib h2 _ (Seek_mem ib _ _ hs)) hp hu

/-! ## The claims, concluded -/

set_option maxRecDepth 100000 in
/-- C14 as stated fails: the keys are concatenated without a separator.  The label maps
`labelsAB` (one key, `ab`) and `labelsA_B` (two keys, `a` and `b`) have different sets of
lower-cased keys, and with the keys visited in ascending order `hashData` hands the same
string `ab` to the digest for both, so both get the type id `md5("ab")`. -/
theorem C14_counterexample :
    ¬ (∀ (U : GoString → GoString) (s1 s2 s3 t1 t2 t3 : Nat) (d1 d2 : GoMap),
        (GoMap.keys d1).Nodup → (GoMap.keys d2).Nodup →
        sameKeySet (loweredKeys U d1) (loweredKeys U d2) = false →
        labelsString s3 (normalizeData U s1 s2 d1) ≠ labelsString t3 (normalizeData U t1 t2 d2)) := by
  intro H
  exact H (fun s => s) 0 0 0 0 0 0 labelsAB labelsA_B (by decide) (by decide) (by decide)
    (by decide)

/-- C14, amended.  When the lower-cased keys of two label maps form a prefix code (none is
empty and none is the beginning of another one) and the two sets of lower-cased keys differ,
the strings `hashData` hands to the digest differ, in whatever order the `range` statements
visit the maps; each type id is the MD5 digest of that string, so the two type ids coincide
only if MD5 collides on two different inputs. -/
theorem C14_prefix_free_keys_distinct_digest_inputs (U : GoString → GoString)
    (s1 s2 s3 t1 t2 t3 : Nat) (d1 d2 : GoMap)
    (hcode : isPrefixCode (loweredKeys U d1 ++ loweredKeys U d2) = true)
    (hdiff : sameKeySet (loweredKeys U d1) (loweredKeys U d2) = false) :
    labelsString s3 (normalizeData U s1 s2 d1) ≠ labelsString t3 (normalizeData U t1 t2 d2)
    ∧ hashData s3 (normalizeData U s1 s2 d1)
        = md5Sum (labelsString s3 (normalizeData U s1 s2 d1))
    ∧ hashData t3 (normalizeData U t1 t2 d2)
        = md5Sum (labelsString t3 (normalizeData U t1 t2 d2)) := by
  refine ⟨?_, rfl, rfl⟩
  intro h
  have m1 : ∀ k, k ∈ GoMap.keys (rangeOrder s3 (normalizeData U s1 s2 d1))
      ↔ k ∈ loweredKeys U d1 := fun k => by
    rw [mem_keys_rangeOrder, mem_keys_normalizeData]
  have m2 : ∀ k, k ∈ GoMap.keys (rangeOrder t3 (normalizeData U t1 t2 d2))
      ↔ k ∈ loweredKeys U d2 := fun k => by
    rw [mem_keys_rangeOrder, mem_keys_normalizeData]
  have e := uniquely_decodable _ hcode _ _
    (fun a ha => List.mem_append_left _ ((m1 a).1 ha))
    (fun a ha => List.mem_append_right _ ((m2 a).1 ha)) h
  have hs : sameKeySet (loweredKeys U d1) (loweredKeys U d2) = true :=
    sameKeySet_of_mem_iff _ _ (fun k => by rw [← m1 k, ← m2 k, e])
  rw [hs] at hdiff
  cases hdiff

set_option maxRecDepth 100000 in
/-- The amended C14 at the labels `hostname`, `ip` and the label `ip`: the digest inputs are
`hostnameip` and `ip`. -/
theorem C14_prefix_free_keys_distinct_digest_inputs_witness :
    isPrefixCode (loweredKeys (fun s => s) web01 ++ loweredKeys (fun s => s) ipLabels) = true
    ∧ sameKeySet (loweredKeys (fun s => s) web01) (loweredKeys (fun s => s) ipLabels) = false
    ∧ labelsString 0 (normalizeData (fun s => s) 0 0 web01) = str "hostnameip"
    ∧ labelsString 0 (normalizeData (fun s => s) 0 0 ipLabels) = str "ip"
    ∧ labelsString 0 (normalizeData (fun s => s) 0 0 web01)
        ≠ labelsString 0 (normalizeData (fun s => s) 0 0 ipLabels) :=
  ⟨by decide, by decide, by decide, by decide,
    (C14_prefix_free_keys_distinct_digest_inputs (fun s => s) 0 0 0 0 0 0 web01 ipLabels
      (by decide) (by decide)).1⟩

set_option maxRecDepth 100000 in
/-- C20 as stated fails: an id without a colon need not be UTF-8.  After
`AddRelationship("\xff", "b", "uses", \x7b\x7d)` on a new store the key `"\xff:b"` of
`relsoutgoing` holds the JSON text of the edge, in which `from` is written as the replacement
rune; `GetRelationshipsByCI("\xff")` finds that key and returns the edge decoded from the
text, whose `from` is U+FFFD and whose `to` is `b`: neither is `"\xff"`. -/
theorem C20_counterexample :
    ¬ (∀ (U : GoString → GoString) (db : Store) (x : GoString) (out : List Relationship)
        (e : Relationship),
        BuiltByAdd U colonFree db → colonFree x = true →
        GetRelationshipsByCI db x = .ok out → e ∈ out → e.From = x ∨ e.To = x) := by
  intro h
  have hb : BuiltByAdd (fun s => s) colonFree
      (AddRelationship (fun s => s) freshDB [0xFF] (str "b") (str "uses") []).2 :=
    BuiltByAdd.add _ _ _ _ BuiltByAdd.fresh (by decide) (by decide)
  have := h (fun s => s) _ [0xFF]
    [⟨toValidUTF8 ([0xFF] ++ str ":" ++ str "b"), toValidUTF8 [0xFF], str "b", str "uses", 0, []⟩]
    ⟨toValidUTF8 ([0xFF] ++ str ":" ++ str "b"), toValidUTF8 [0xFF], str "b", str "uses", 0, []⟩
    hb (by decide) (by decide) (List.mem_singleton.2 rfl)
  revert this
  decide

/-- C20, amended.  In every store built from a new store by `AddRelationship` calls whose
`from` and `to` ids contain no colon and are valid UTF-8 (as minted ids are), every edge that
`GetRelationshipsByCI(x)` returns for an `x` without a colon has `from = x` or `to = x`. -/
theorem C20_adjacency_scan_sound (U : GoString → GoString) (db : Store) (x : GoString)
    (out : List Relationship) (e : Relationship) (hb : BuiltByAdd U cleanId db)
    (hx : colonFree x = true) (hget : GetRelationshipsByCI db x = .ok out) (he : e ∈ out) :
    e.From = x ∨ e.To = x :=
  GetRelationshipsByCI_sound db x out e (AdjInv_of_built U hb) hx hget he

set_option maxRecDepth 100000 in
/-- The amended C20 on the store of `addUses`, the edge from `ulid1` to `ulid2`:
`GetRelationshipsByCI(ulid1)` returns that edge, whose `from` is `ulid1`. -/
theorem C20_adjacency_scan_sound_witness :
    colonFree ulid1 = true
    ∧ GetRelationshipsByCI (addUses (fun s => s)).2 ulid1 = .ok [edgeUses]
    ∧ (edgeUses.From = ulid1 ∨ edgeUses.To = ulid1) :=
  ⟨by decide, by decide,
    C20_adjacency_scan_sound (fun s => s) (addUses (fun s => s)).2 ulid1 [edgeUses] edgeUses
      (BuiltByAdd.add ulid1 ulid2 (str "uses") [] BuiltByAdd.fresh (by decide) (by decide))
      (by decide) (by decide) (List.mem_singleton.2 rfl)⟩

end Cmdb
